import Mathlib

/-!
Verification of the Colebrook–Clamond friction-factor solver
(`colebrook_clamond.py`, function `f_clamond`).

The float64 arithmetic of the source is idealised as exact real arithmetic.
The numpy scalar/array behaviour (`np.asarray`, `np.isscalar`, 1-d
broadcasting) is embedded explicitly; Python exceptions become an
`Except` value.  A second model with an explicit NaN value (`Option ℝ`)
is developed further below for the NaN-propagation claim.
-/

namespace Colebrook

/-! ### Module constants (source lines 26-29)

`_A` is the literal `1.151292546497022842`; as the source comment states it
is `0.5*ln(10)` (the literal is exactly the float64 rounding of that value),
so it is idealised here to the exact real `ln 10 / 2`. -/

noncomputable def LOG10 : ℝ := Real.log 10

noncomputable def C1 : ℝ := LOG10 / 18.574

noncomputable def C2 : ℝ := Real.log (1 / 5.02) + Real.log LOG10

noncomputable def A : ℝ := LOG10 / 2

/-! ### Per-element computation (source lines 64-86)

`X1`, `X2` are the per-element initialisation; `stepE`/`stepF` are one body
of the quartic refinement loop; `iterN x1 x2 F n` is the value of `F` after
`n` loop iterations starting from `F`. -/

noncomputable def X1 (R K : ℝ) : ℝ := K * R * C1

noncomputable def X2 (R : ℝ) : ℝ := Real.log R + C2

noncomputable def stepE (x1 x2 F : ℝ) : ℝ :=
  (Real.log (x1 + F) + F - x2) / (1 + x1 + F)

noncomputable def stepF (x1 x2 F : ℝ) : ℝ :=
  F - (1 + x1 + F + 0.5 * stepE x1 x2 F) * stepE x1 x2 F * (x1 + F) /
      (1 + x1 + F + stepE x1 x2 F * (1 + stepE x1 x2 F / 3))

noncomputable def iterN (x1 x2 F : ℝ) : ℕ → ℝ
  | 0 => F
  | n + 1 => stepF x1 x2 (iterN x1 x2 F n)

/-- Value of `F` after `n` iterations, from the standard initialisation
`F = X2 - 0.2` (source line 68). -/
noncomputable def Fiter (R K : ℝ) (n : ℕ) : ℝ :=
  iterN (X1 R K) (X2 R) (X2 R - 0.2) n

/-- The log-domain check `X1 + F > 0` (source lines 72-77, 81) holds at the
start of each of the `iters` loop iterations. -/
def domainOK (R K : ℝ) (iters : ℕ) : Prop :=
  ∀ n < iters, 0 < X1 R K + Fiter R K n

/-- The friction factor produced for one element (source line 86). -/
noncomputable def runElem (R K : ℝ) (iters : ℕ) : ℝ :=
  (A / Fiter R K iters) ^ 2

/-! ### Spec-side model of the scheme

Modelled from the spec: section 4.1, algorithm steps 1-5, with the
constants written exactly as the spec writes them
(`C1 = ln(10)/18.574`, `C2 = ln(ln(10)/5.02)`, `A = 0.5*ln(10)`). -/

noncomputable def specC1 : ℝ := Real.log 10 / 18.574

noncomputable def specC2 : ℝ := Real.log (Real.log 10 / 5.02)

noncomputable def specA : ℝ := 0.5 * Real.log 10

/-- Modelled from the spec: one refinement step (steps 4b and 4c). -/
noncomputable def specStep (x1 x2 F : ℝ) : ℝ :=
  F - (1 + x1 + F + 0.5 * ((Real.log (x1 + F) + F - x2) / (1 + x1 + F))) *
        ((Real.log (x1 + F) + F - x2) / (1 + x1 + F)) * (x1 + F) /
      (1 + x1 + F + ((Real.log (x1 + F) + F - x2) / (1 + x1 + F)) *
        (1 + ((Real.log (x1 + F) + F - x2) / (1 + x1 + F)) / 3))

/-- Modelled from the spec: `F` after `n` refinement steps from
`F = X2 - 0.2` with `X1 = K*R*C1`, `X2 = ln R + C2` (steps 2-4). -/
noncomputable def specF (R K : ℝ) : ℕ → ℝ
  | 0 => Real.log R + specC2 - 0.2
  | n + 1 => specStep (K * R * specC1) (Real.log R + specC2) (specF R K n)

/-- Modelled from the spec: the final mapping `f = (A / F) ** 2` (step 5). -/
noncomputable def clamondSpec (R K : ℝ) (iters : ℕ) : ℝ :=
  (specA / specF R K iters) ^ 2

/-! ### The numpy-level call (source lines 31-91) -/

/-- A Python argument to `f_clamond`: a plain scalar or a 1-d array. -/
inductive PyIn where
  | scalar (x : ℝ)
  | array (xs : List ℝ)

/-- A numpy ndarray of dimension 0 or 1 (the shapes this repository uses). -/
inductive NDArray where
  | nd0 (x : ℝ)
  | nd1 (xs : List ℝ)

/-- `np.asarray` (source lines 49-50): a scalar becomes a 0-d array. -/
def np_asarray : PyIn → NDArray
  | .scalar x => .nd0 x
  | .array xs => .nd1 xs

/-- `np.isscalar` applied to an ndarray is `False`, including for 0-d
arrays.  (At source line 89 the names `R`, `K` have already been rebound to
ndarrays by `np.asarray` at lines 49-50, so this is the value used there.) -/
def np_isscalar : NDArray → Bool := fun _ => false

/-- The element list of an array (a 0-d array holds one element). -/
def NDArray.elems : NDArray → List ℝ
  | .nd0 x => [x]
  | .nd1 xs => xs

/-- Result of broadcasting `R` and `K` together: the broadcast shape is
scalar (0-d) or a vector, with the paired elements. -/
structure Broadcasted where
  scalarShape : Bool
  rk : List (ℝ × ℝ)

/-- Numpy 1-d broadcasting of the two inputs, as exercised by
`K * R` / `X1 + F` etc.: 0-d stretches, a length-1 axis stretches,
any other length mismatch is an error (`none`). -/
def broadcastRK : NDArray → NDArray → Option Broadcasted
  | .nd0 r, .nd0 k => some ⟨true, [(r, k)]⟩
  | .nd0 r, .nd1 ks => some ⟨false, ks.map fun k => (r, k)⟩
  | .nd1 rs, .nd0 k => some ⟨false, rs.map fun r => (r, k)⟩
  | .nd1 rs, .nd1 ks =>
      if rs.length = ks.length then some ⟨false, rs.zip ks⟩
      else if rs.length = 1 then some ⟨false, ks.map fun k => (rs.headI, k)⟩
      else if ks.length = 1 then some ⟨false, rs.map fun r => (r, ks.headI)⟩
      else none

/-- The errors the call can raise.  In Python, `invalidArgument` and
`shapeMismatch` are both `ValueError` (with different messages: source
lines 52-57 vs. numpy's broadcast error) and `domainError` is the
`FloatingPointError` of source line 74; the spec's error taxonomy names
them as distinct conditions. -/
inductive PyErr where
  | invalidArgument
  | domainError
  | shapeMismatch
deriving DecidableEq

/-- The value returned by a successful call: a plain Python float, a 0-d
array, or a 1-d array. -/
inductive PyOut where
  | pyfloat (x : ℝ)
  | nd0 (x : ℝ)
  | nd1 (xs : List ℝ)

/-- Outcome of one call: whether the turbulence advisory warning was
emitted (`warnings.warn`, source line 61), and the returned value or the
exception raised. -/
structure CallResult where
  warned : Bool
  result : Except PyErr PyOut

open Classical in
/-- The refinement loop (source lines 80-83): each iteration first checks
`np.any(X1 + F <= 0)` (raising `FloatingPointError`), then updates every
element of `F`.  The state pairs each element's `(X1, X2)` with its
current `F`. -/
noncomputable def runLoop : List ((ℝ × ℝ) × ℝ) → ℕ → Except PyErr (List ℝ)
  | xs, 0 => .ok (xs.map fun p => p.2)
  | xs, n + 1 =>
      if ∃ p ∈ xs, p.1.1 + p.2 ≤ 0 then .error .domainError
      else runLoop (xs.map fun p => (p.1, stepF p.1.1 p.1.2 p.2)) n

open Classical in
/-- The full call `f_clamond(R, K, iters)` (source lines 31-91):
validation, advisory warning, broadcastful initialisation, the checked
refinement loop, the final mapping, and the scalar-return branch. -/
noncomputable def f_clamond (Rin Kin : PyIn) (iters : ℤ) : CallResult :=
  let R := np_asarray Rin
  let K := np_asarray Kin
  if ∃ r ∈ R.elems, r ≤ 0 then ⟨false, .error .invalidArgument⟩
  else if ∃ k ∈ K.elems, k < 0 then ⟨false, .error .invalidArgument⟩
  else if iters < 0 then ⟨false, .error .invalidArgument⟩
  else
    let warned : Bool := if ∃ r ∈ R.elems, r < 2300 then true else false
    match broadcastRK R K with
    | none => ⟨warned, .error .shapeMismatch⟩
    | some bc =>
        match runLoop (bc.rk.map fun p => ((X1 p.1 p.2, X2 p.1), X2 p.1 - 0.2))
            iters.toNat with
        | .error e => ⟨warned, .error e⟩
        | .ok Fs =>
            let fs := Fs.map fun F => (A / F) ^ 2
            if bc.scalarShape && np_isscalar R && np_isscalar K then
              ⟨warned, .ok (.pyfloat fs.headI)⟩
            else if bc.scalarShape then ⟨warned, .ok (.nd0 fs.headI)⟩
            else ⟨warned, .ok (.nd1 fs)⟩

/-! ### Helper functions for the analysis of one refinement step at `K = 0`

`sOf R` is the initial `X1 + F` (which equals `F`, since `K = 0` makes
`X1 = 0`), `EOf R` the first correction term and `gOf R` the value of `F`
after one refinement step. -/

noncomputable def sOf (R : ℝ) : ℝ := Real.log R + C2 - 0.2

noncomputable def EOf (R : ℝ) : ℝ := (Real.log (sOf R) - 0.2) / (1 + sOf R)

noncomputable def gOf (R : ℝ) : ℝ :=
  sOf R - (1 + sOf R + 0.5 * EOf R) * EOf R * sOf R /
    (1 + sOf R + EOf R * (1 + EOf R / 3))

/-! ### NaN-aware model

Same source function, but each float is `Option ℝ` with `none` playing
IEEE NaN: arithmetic propagates `none`, comparisons with `none` are
`false` (as in numpy), `np.log` yields a non-real (`none`) on
non-positive arguments.  Division by exact zero (never exercised under
the hypotheses used below) is also mapped to `none`. -/

abbrev FP := Option ℝ

def fadd : FP → FP → FP
  | some a, some b => some (a + b)
  | _, _ => none

def fsub : FP → FP → FP
  | some a, some b => some (a - b)
  | _, _ => none

def fmul : FP → FP → FP
  | some a, some b => some (a * b)
  | _, _ => none

open Classical in
noncomputable def fdiv : FP → FP → FP
  | some a, some b => if b = 0 then none else some (a / b)
  | _, _ => none

/-- `x ** 2` on the final mapping. -/
def fsq : FP → FP
  | some a => some (a ^ 2)
  | none => none

open Classical in
noncomputable def flog : FP → FP
  | some a => if 0 < a then some (Real.log a) else none
  | none => none

open Classical in
/-- The elementwise comparison `x <= 0`; `False` on NaN. -/
noncomputable def fnonpos : FP → Bool
  | some a => if a ≤ 0 then true else false
  | none => false

open Classical in
/-- The elementwise comparison `x < 0`; `False` on NaN. -/
noncomputable def fneg : FP → Bool
  | some a => if a < 0 then true else false
  | none => false

open Classical in
/-- The elementwise comparison `x < 2300`; `False` on NaN. -/
noncomputable def fbelow2300 : FP → Bool
  | some a => if a < 2300 then true else false
  | none => false

noncomputable def fstepE (x1 x2 F : FP) : FP :=
  fdiv (fsub (fadd (flog (fadd x1 F)) F) x2) (fadd (fadd (some 1) x1) F)

noncomputable def fstepF (x1 x2 F : FP) : FP :=
  fsub F (fdiv
    (fmul (fmul (fadd (fadd (fadd (some 1) x1) F)
        (fmul (some 0.5) (fstepE x1 x2 F))) (fstepE x1 x2 F)) (fadd x1 F))
    (fadd (fadd (fadd (some 1) x1) F)
      (fmul (fstepE x1 x2 F) (fadd (some 1) (fdiv (fstepE x1 x2 F) (some 3))))))

inductive PyInFP where
  | scalar (x : FP)
  | array (xs : List FP)

inductive NDArrayFP where
  | nd0 (x : FP)
  | nd1 (xs : List FP)

def np_asarrayFP : PyInFP → NDArrayFP
  | .scalar x => .nd0 x
  | .array xs => .nd1 xs

def NDArrayFP.elems : NDArrayFP → List FP
  | .nd0 x => [x]
  | .nd1 xs => xs

structure BroadcastedFP where
  scalarShape : Bool
  rk : List (FP × FP)

def broadcastFP : NDArrayFP → NDArrayFP → Option BroadcastedFP
  | .nd0 r, .nd0 k => some ⟨true, [(r, k)]⟩
  | .nd0 r, .nd1 ks => some ⟨false, ks.map fun k => (r, k)⟩
  | .nd1 rs, .nd0 k => some ⟨false, rs.map fun r => (r, k)⟩
  | .nd1 rs, .nd1 ks =>
      if rs.length = ks.length then some ⟨false, rs.zip ks⟩
      else if rs.length = 1 then some ⟨false, ks.map fun k => (rs.headI, k)⟩
      else if ks.length = 1 then some ⟨false, rs.map fun r => (r, ks.headI)⟩
      else none

inductive PyOutFP where
  | pyfloat (x : FP)
  | nd0 (x : FP)
  | nd1 (xs : List FP)

structure CallResultFP where
  warned : Bool
  result : Except PyErr PyOutFP

/-- `np.isscalar` on an ndarray in the NaN-aware model (always `False`,
as in `np_isscalar`). -/
def np_isscalarFP : NDArrayFP → Bool := fun _ => false

noncomputable def runLoopFP : List ((FP × FP) × FP) → ℕ → Except PyErr (List FP)
  | xs, 0 => .ok (xs.map fun p => p.2)
  | xs, n + 1 =>
      if xs.any (fun p => fnonpos (fadd p.1.1 p.2)) then .error .domainError
      else runLoopFP (xs.map fun p => (p.1, fstepF p.1.1 p.1.2 p.2)) n

/-- The full call in the NaN-aware model, mirroring `f_clamond` clause for
clause (the per-element `X1` is `K * R * _C1`, `X2` is `log R + _C2`). -/
noncomputable def f_clamondFP (Rin Kin : PyInFP) (iters : ℤ) : CallResultFP :=
  let R := np_asarrayFP Rin
  let K := np_asarrayFP Kin
  if R.elems.any fnonpos then ⟨false, .error .invalidArgument⟩
  else if K.elems.any fneg then ⟨false, .error .invalidArgument⟩
  else if iters < 0 then ⟨false, .error .invalidArgument⟩
  else
    let warned : Bool := R.elems.any fbelow2300
    match broadcastFP R K with
    | none => ⟨warned, .error .shapeMismatch⟩
    | some bc =>
        match runLoopFP (bc.rk.map fun p =>
            ((fmul (fmul p.2 p.1) (some C1), fadd (flog p.1) (some C2)),
             fsub (fadd (flog p.1) (some C2)) (some 0.2))) iters.toNat with
        | .error e => ⟨warned, .error e⟩
        | .ok Fs =>
            let fs := Fs.map fun F => fsq (fdiv (some A) F)
            if bc.scalarShape && np_isscalarFP R && np_isscalarFP K then
              ⟨warned, .ok (.pyfloat fs.headI)⟩
            else if bc.scalarShape then ⟨warned, .ok (.nd0 fs.headI)⟩
            else ⟨warned, .ok (.nd1 fs)⟩

/-- Summary of the NaN-aware loop state of one element after `n`
iterations: an element whose `X1` is NaN keeps (only) its current `F` at
`n = 0` and is NaN afterwards; a fully real element follows `iterN`. -/
noncomputable def iterFP : (FP × FP) × FP → ℕ → FP
  | p, 0 => p.2
  | ((some x1, some x2), some F), n + 1 => some (iterN x1 x2 F (n + 1))
  | _, _ + 1 => none

/-! ## Infrastructure lemmas -/

lemma iterN_succ_left (x1 x2 F : ℝ) (n : ℕ) :
    iterN x1 x2 (stepF x1 x2 F) n = iterN x1 x2 F (n + 1) := by
  induction n with
  | zero => rfl
  | succ n ih => rw [iterN, ih]; rfl

lemma runLoop_error_domain (n : ℕ) (xs : List ((ℝ × ℝ) × ℝ)) (e : PyErr)
    (h : runLoop xs n = .error e) : e = .domainError := by
  induction n generalizing xs with
  | zero => simp [runLoop] at h
  | succ n ih =>
    rw [runLoop] at h
    split_ifs at h with hc
    · simpa using h.symm
    · exact ih _ h

lemma runLoop_error_iff (xs : List ((ℝ × ℝ) × ℝ)) (n : ℕ) :
    runLoop xs n = .error PyErr.domainError ↔
      ∃ m < n, ∃ p ∈ xs, p.1.1 + iterN p.1.1 p.1.2 p.2 m ≤ 0 := by
  induction n generalizing xs with
  | zero => simp [runLoop]
  | succ n ih =>
    rw [runLoop]
    by_cases h : ∃ p ∈ xs, p.1.1 + p.2 ≤ 0
    · rw [if_pos h]
      obtain ⟨p, hp, hle⟩ := h
      exact iff_of_true rfl ⟨0, Nat.succ_pos n, p, hp, hle⟩
    · rw [if_neg h, ih]
      constructor
      · rintro ⟨m, hm, p, hp, hle⟩
        simp only [List.mem_map] at hp
        obtain ⟨q, hq, rfl⟩ := hp
        refine ⟨m + 1, Nat.succ_lt_succ hm, q, hq, ?_⟩
        rwa [← iterN_succ_left]
      · rintro ⟨m, hm, p, hp, hle⟩
        match m with
        | 0 => exact absurd ⟨p, hp, hle⟩ h
        | m + 1 =>
          refine ⟨m, Nat.lt_of_succ_lt_succ hm, _,
            List.mem_map_of_mem _ hp, ?_⟩
          show p.1.1 + iterN p.1.1 p.1.2 (stepF p.1.1 p.1.2 p.2) m ≤ 0
          rwa [iterN_succ_left]

lemma runLoop_ok_of (xs : List ((ℝ × ℝ) × ℝ)) (n : ℕ)
    (h : ∀ m < n, ∀ p ∈ xs, 0 < p.1.1 + iterN p.1.1 p.1.2 p.2 m) :
    runLoop xs n = .ok (xs.map fun p => iterN p.1.1 p.1.2 p.2 n) := by
  induction n generalizing xs with
  | zero => rfl
  | succ n ih =>
    rw [runLoop, if_neg]
    · rw [ih]
      · rw [List.map_map]
        apply congrArg Except.ok
        apply List.map_congr_left
        intro p _
        show iterN p.1.1 p.1.2 (stepF p.1.1 p.1.2 p.2) n = _
        rw [iterN_succ_left]
      · intro m hm p hp
        simp only [List.mem_map] at hp
        obtain ⟨q, hq, rfl⟩ := hp
        show 0 < q.1.1 + iterN q.1.1 q.1.2 (stepF q.1.1 q.1.2 q.2) m
        rw [iterN_succ_left]
        exact h (m + 1) (Nat.succ_lt_succ hm) q hq
    · rintro ⟨p, hp, hle⟩
      exact absurd hle (not_le.mpr (h 0 (Nat.succ_pos n) p hp))

/-! ### Constants: code form vs. spec form -/

lemma specC1_eq : specC1 = C1 := rfl

lemma specA_eq : specA = A := by
  unfold specA A LOG10; ring

lemma specC2_eq : specC2 = C2 := by
  unfold specC2 C2 LOG10
  rw [show (Real.log 10 / 5.02 : ℝ) = 1 / 5.02 * Real.log 10 by ring,
    Real.log_mul (by norm_num) (ne_of_gt (Real.log_pos (by norm_num)))]

lemma specStep_eq (x1 x2 F : ℝ) : specStep x1 x2 F = stepF x1 x2 F := rfl

lemma specF_eq (R K : ℝ) (n : ℕ) : specF R K n = Fiter R K n := by
  induction n with
  | zero =>
    show Real.log R + specC2 - 0.2 = X2 R - 0.2
    rw [specC2_eq]; rfl
  | succ n ih =>
    show specStep (K * R * specC1) (Real.log R + specC2) (specF R K n)
        = stepF (X1 R K) (X2 R) (Fiter R K n)
    rw [specStep_eq, specC1_eq, specC2_eq, ih]; rfl

lemma clamondSpec_eq (R K : ℝ) (n : ℕ) :
    clamondSpec R K n = runElem R K n := by
  unfold clamondSpec runElem
  rw [specA_eq, specF_eq]

/-! ### Unfolding the call on valid inputs -/

lemma f_clamond_scalar_eq (R K : ℝ) (n : ℕ) (hR : 0 < R) (hK : 0 ≤ K)
    (hdom : domainOK R K n) :
    f_clamond (.scalar R) (.scalar K) (n : ℤ) =
      ⟨if R < 2300 then true else false, .ok (.nd0 (runElem R K n))⟩ := by
  have h1 : ¬ ∃ r ∈ [R], r ≤ 0 := by
    rintro ⟨r, hr, hle⟩
    rw [List.mem_singleton] at hr
    exact absurd hle (not_le.mpr (hr ▸ hR))
  have h2 : ¬ ∃ k ∈ [K], k < 0 := by
    rintro ⟨k, hk, hlt⟩
    rw [List.mem_singleton] at hk
    exact absurd hlt (not_lt.mpr (hk ▸ hK))
  have h3 : ¬ ((n : ℤ) < 0) := not_lt.mpr (Int.natCast_nonneg n)
  have hrl : runLoop [((X1 R K, X2 R), X2 R - 0.2)] n =
      .ok [iterN (X1 R K) (X2 R) (X2 R - 0.2) n] := by
    rw [runLoop_ok_of]
    · rfl
    · intro m hm p hp
      rw [List.mem_singleton] at hp
      subst hp
      exact hdom m hm
  have h4 : ((n : ℤ)).toNat = n := Int.toNat_natCast n
  have h5 : (∃ r ∈ [R], r < 2300) ↔ R < 2300 := by simp
  simp only [f_clamond, np_asarray, NDArray.elems, broadcastRK, List.map,
    np_isscalar, Bool.and_false, Bool.false_and, h4]
  rw [if_neg h1, if_neg h2, if_neg h3, hrl]
  simp only [List.map, List.headI, Bool.false_eq_true, if_false, if_true, h5]
  rfl

lemma f_clamond_array_scalar_eq (Rs : List ℝ) (K : ℝ) (n : ℕ)
    (hR : ∀ r ∈ Rs, 0 < r) (hK : 0 ≤ K)
    (hdom : ∀ r ∈ Rs, domainOK r K n) :
    f_clamond (.array Rs) (.scalar K) (n : ℤ) =
      ⟨if ∃ r ∈ Rs, r < 2300 then true else false,
       .ok (.nd1 (Rs.map fun r => runElem r K n))⟩ := by
  have h1 : ¬ ∃ r ∈ Rs, r ≤ 0 := by
    rintro ⟨r, hr, hle⟩
    exact absurd hle (not_le.mpr (hR r hr))
  have h2 : ¬ ∃ k ∈ [K], k < 0 := by
    rintro ⟨k, hk, hlt⟩
    rw [List.mem_singleton] at hk
    exact absurd hlt (not_lt.mpr (hk ▸ hK))
  have h3 : ¬ ((n : ℤ) < 0) := not_lt.mpr (Int.natCast_nonneg n)
  have h4 : ((n : ℤ)).toNat = n := Int.toNat_natCast n
  have hrl : runLoop ((Rs.map fun r => (r, K)).map fun p =>
      ((X1 p.1 p.2, X2 p.1), X2 p.1 - 0.2)) n =
      .ok (Rs.map fun r => iterN (X1 r K) (X2 r) (X2 r - 0.2) n) := by
    rw [runLoop_ok_of]
    · rw [List.map_map, List.map_map]
      exact congrArg Except.ok (List.map_congr_left fun r _ => rfl)
    · intro m hm p hp
      rw [List.map_map, List.mem_map] at hp
      obtain ⟨r, hr, rfl⟩ := hp
      exact hdom r hr m hm
  simp only [f_clamond, np_asarray, NDArray.elems, broadcastRK,
    np_isscalar, Bool.and_false, Bool.false_and, h4]
  rw [if_neg h1, if_neg h2, if_neg h3, hrl]
  simp only [List.map_map, Bool.false_eq_true, if_false]
  exact congrArg (fun l => CallResult.mk _ (.ok (PyOut.nd1 l)))
    (List.map_congr_left fun r _ => rfl)

/-! ### Validation behaviour -/

lemma f_clamond_eq_invalid (Rin Kin : PyIn) (iters : ℤ)
    (h : (∃ r ∈ (np_asarray Rin).elems, r ≤ 0) ∨
      (∃ k ∈ (np_asarray Kin).elems, k < 0) ∨ iters < 0) :
    f_clamond Rin Kin iters = ⟨false, .error .invalidArgument⟩ := by
  simp only [f_clamond]
  rcases h with h | h | h
  · rw [if_pos h]
  · by_cases h1 : ∃ r ∈ (np_asarray Rin).elems, r ≤ 0
    · rw [if_pos h1]
    · rw [if_neg h1, if_pos h]
  · by_cases h1 : ∃ r ∈ (np_asarray Rin).elems, r ≤ 0
    · rw [if_pos h1]
    · by_cases h2 : ∃ k ∈ (np_asarray Kin).elems, k < 0
      · rw [if_neg h1, if_pos h2]
      · rw [if_neg h1, if_neg h2, if_pos h]

lemma f_clamond_not_invalid (Rin Kin : PyIn) (iters : ℤ)
    (h1 : ¬ ∃ r ∈ (np_asarray Rin).elems, r ≤ 0)
    (h2 : ¬ ∃ k ∈ (np_asarray Kin).elems, k < 0)
    (h3 : ¬ iters < 0) :
    (f_clamond Rin Kin iters).result ≠ .error .invalidArgument := by
  simp only [f_clamond]
  rw [if_neg h1, if_neg h2, if_neg h3]
  split
  · simp
  · split
    · rename_i e heq
      have he := runLoop_error_domain _ _ _ heq
      subst he
      simp
    · simp only [np_isscalar, Bool.and_false]
      split
      · simp
      · split <;> simp

/-! ## Claims -/

/-- Claim C1: for every R > 0, K ≥ 0 and iteration count iters ≥ 0, whenever
the per-step log-domain checks hold (otherwise the DomainError of C4 preempts
any result), the solver's result is exactly the Clamond scheme as the spec
states it: per element X1 = K·R·C1 and X2 = ln R + C2 with C1 = ln(10)/18.574
and C2 = ln(ln(10)/5.02); F starts at X2 - 0.2 and is refined exactly `iters`
times by E = (ln(X1+F)+F-X2)/(1+X1+F),
F := F - (1+X1+F+0.5E)·E·(X1+F)/(1+X1+F+E(1+E/3)); finally f = (A/F)² with
A = 0.5·ln 10. -/
theorem C1_clamond_scheme (R K : ℝ) (iters : ℕ) (hR : 0 < R) (hK : 0 ≤ K)
    (hdom : domainOK R K iters) :
    (f_clamond (.scalar R) (.scalar K) (iters : ℤ)).result =
      .ok (.nd0 (clamondSpec R K iters)) := by
  rw [f_clamond_scalar_eq R K iters hR hK hdom, clamondSpec_eq]

theorem C1_clamond_scheme_witness :
    0 < (2 : ℝ) ∧ 0 ≤ (0 : ℝ) ∧ domainOK 2 0 0 ∧
      (f_clamond (.scalar 2) (.scalar 0) ((0 : ℕ) : ℤ)).result =
        .ok (.nd0 (clamondSpec 2 0 0)) :=
  ⟨by norm_num, le_refl 0, fun n hn => absurd hn (Nat.not_lt_zero n),
    C1_clamond_scheme 2 0 0 (by norm_num) (le_refl 0)
      (fun n hn => absurd hn (Nat.not_lt_zero n))⟩

/-- Claim C2 (code bug): a call in which both R and K are plain scalars
returns a 0-d ndarray (`PyOut.nd0`), not a plain scalar (`PyOut.pyfloat`):
at source line 89 `np.isscalar` is applied to the local `R`, `K` AFTER lines
49-50 rebound them to ndarrays, and `np.isscalar` of any ndarray is `False`,
so the `float(f)` branch is dead code.  Evaluation of the model at the
failing input R = 3000.0, K = 0.0, iters = 0. -/
theorem C2_scalar_call_returns_array :
    (f_clamond (.scalar 3000) (.scalar 0) ((0 : ℕ) : ℤ)).result =
      .ok (.nd0 (runElem 3000 0 0)) := by
  rw [f_clamond_scalar_eq 3000 0 0 (by norm_num) (le_refl 0)
    (fun n hn => absurd hn (Nat.not_lt_zero n))]

/-- Claim C3: the call raises InvalidArgument exactly when some element of R
is ≤ 0, some element of K is < 0, or iters < 0; in that case it raises before
any computation — no warning is emitted and no (partial) result accompanies
the error. -/
theorem C3_validation (Rin Kin : PyIn) (iters : ℤ) :
    ((f_clamond Rin Kin iters).result = .error .invalidArgument ↔
      (∃ r ∈ (np_asarray Rin).elems, r ≤ 0) ∨
      (∃ k ∈ (np_asarray Kin).elems, k < 0) ∨ iters < 0) ∧
    (((∃ r ∈ (np_asarray Rin).elems, r ≤ 0) ∨
      (∃ k ∈ (np_asarray Kin).elems, k < 0) ∨ iters < 0) →
      f_clamond Rin Kin iters = ⟨false, .error .invalidArgument⟩) := by
  refine ⟨⟨fun h => ?_, fun h => by rw [f_clamond_eq_invalid Rin Kin iters h]⟩,
    fun h => f_clamond_eq_invalid Rin Kin iters h⟩
  by_contra hc
  rcases not_or.mp hc with ⟨hA, hBC⟩
  rcases not_or.mp hBC with ⟨hB, hC⟩
  exact f_clamond_not_invalid Rin Kin iters hA hB hC h

theorem C3_validation_witness :
    ((f_clamond (.scalar (-1)) (.scalar 0) 2).result =
        .error .invalidArgument ↔
      (∃ r ∈ (np_asarray (.scalar (-1))).elems, r ≤ 0) ∨
      (∃ k ∈ (np_asarray (.scalar 0)).elems, k < 0) ∨ (2 : ℤ) < 0) ∧
    (((∃ r ∈ (np_asarray (.scalar (-1))).elems, r ≤ 0) ∨
      (∃ k ∈ (np_asarray (.scalar 0)).elems, k < 0) ∨ (2 : ℤ) < 0) →
      f_clamond (.scalar (-1)) (.scalar 0) 2 =
        ⟨false, .error .invalidArgument⟩) :=
  C3_validation (.scalar (-1)) (.scalar 0) 2

/-- Claim C6: the refinement loop runs exactly `iters` times — the returned
value is the `iters`-fold iterate of the step map, with no convergence test or
early exit — and the solver (a total function) terminates; for iters = 0 the
body never runs, no log-domain check is made (no domain hypothesis is
needed), and the result is the raw initial-guess mapping
f = (A/(ln R + C2 - 0.2))². -/
theorem C6_fixed_iteration_count (R K : ℝ) (hR : 0 < R) (hK : 0 ≤ K) :
    (f_clamond (.scalar R) (.scalar K) ((0 : ℕ) : ℤ)).result =
      .ok (.nd0 ((A / (Real.log R + C2 - 0.2)) ^ 2)) ∧
    ∀ iters : ℕ, domainOK R K iters →
      (f_clamond (.scalar R) (.scalar K) (iters : ℤ)).result =
        .ok (.nd0 ((A / iterN (X1 R K) (X2 R) (X2 R - 0.2) iters) ^ 2)) := by
  constructor
  · rw [f_clamond_scalar_eq R K 0 hR hK (fun n hn => absurd hn (Nat.not_lt_zero n))]
    rfl
  · intro iters hdom
    rw [f_clamond_scalar_eq R K iters hR hK hdom]
    rfl

theorem C6_fixed_iteration_count_witness :
    0 < (2 : ℝ) ∧ 0 ≤ (0 : ℝ) ∧
    ((f_clamond (.scalar 2) (.scalar 0) ((0 : ℕ) : ℤ)).result =
        .ok (.nd0 ((A / (Real.log 2 + C2 - 0.2)) ^ 2)) ∧
      ∀ iters : ℕ, domainOK 2 0 iters →
        (f_clamond (.scalar 2) (.scalar 0) (iters : ℤ)).result =
          .ok (.nd0 ((A / iterN (X1 2 0) (X2 2) (X2 2 - 0.2) iters) ^ 2))) :=
  ⟨by norm_num, le_refl 0,
    C6_fixed_iteration_count 2 0 (by norm_num) (le_refl 0)⟩

/-- Claim C7: determinism — two calls with identical R, K and iters return
identical outcomes (warning and result); the embedded call is a pure function
of its arguments, with no hidden state shared between calls. -/
theorem C7_deterministic (R1 K1 R2 K2 : PyIn) (i1 i2 : ℤ)
    (hR : R1 = R2) (hK : K1 = K2) (hi : i1 = i2) :
    f_clamond R1 K1 i1 = f_clamond R2 K2 i2 := by
  rw [hR, hK, hi]

theorem C7_deterministic_witness :
    PyIn.scalar 7e5 = PyIn.scalar 7e5 ∧ PyIn.scalar 0.01 = PyIn.scalar 0.01 ∧
    (2 : ℤ) = 2 ∧
    f_clamond (.scalar 7e5) (.scalar 0.01) 2 =
      f_clamond (.scalar 7e5) (.scalar 0.01) 2 :=
  ⟨rfl, rfl, rfl,
    C7_deterministic (.scalar 7e5) (.scalar 0.01) (.scalar 7e5) (.scalar 0.01)
      2 2 rfl rfl rfl⟩

lemma exists_mem_map {α β : Type} (f : α → β) (l : List α) (P : β → Prop) :
    (∃ q ∈ l.map f, P q) ↔ ∃ p ∈ l, P (f p) := by
  constructor
  · rintro ⟨q, hq, h⟩
    rw [List.mem_map] at hq
    obtain ⟨p, hp, rfl⟩ := hq
    exact ⟨p, hp, h⟩
  · rintro ⟨p, hp, h⟩
    exact ⟨f p, List.mem_map_of_mem f hp, h⟩

lemma boolIf_eq_true (P : Prop) [Decidable P] :
    ((if P then true else false) = true) ↔ P := by
  split_ifs with h <;> simp [h]

lemma not_exists_le_of_pos {l : List ℝ} (h : ∀ r ∈ l, 0 < r) :
    ¬ ∃ r ∈ l, r ≤ 0 := by
  rintro ⟨r, hr, hle⟩
  exact absurd hle (not_le.mpr (h r hr))

lemma not_exists_lt_of_nonneg {l : List ℝ} (h : ∀ k ∈ l, 0 ≤ k) :
    ¬ ∃ k ∈ l, k < 0 := by
  rintro ⟨k, hk, hlt⟩
  exact absurd hlt (not_lt.mpr (h k hk))

/-- Claim C4: in a call that passes argument validation, the check
`X1 + F > 0` is made at the start of each of the `iters` refinement steps and
only there: DomainError is raised iff some broadcast element has
X1 + F ≤ 0 at the start of some step n < iters (F being the n-fold iterate
for that element); if every check passes no DomainError is raised; and when
it is raised the result is the bare error — no friction factor is returned. -/
theorem C4_log_domain_check (Rin Kin : PyIn) (iters : ℤ) (bc : Broadcasted)
    (h1 : ∀ r ∈ (np_asarray Rin).elems, 0 < r)
    (h2 : ∀ k ∈ (np_asarray Kin).elems, 0 ≤ k)
    (h3 : 0 ≤ iters)
    (hbc : broadcastRK (np_asarray Rin) (np_asarray Kin) = some bc) :
    (f_clamond Rin Kin iters).result = .error .domainError ↔
      ∃ n < iters.toNat, ∃ p ∈ bc.rk, X1 p.1 p.2 + Fiter p.1 p.2 n ≤ 0 := by
  simp only [f_clamond]
  rw [if_neg (not_exists_le_of_pos h1), if_neg (not_exists_lt_of_nonneg h2),
    if_neg (not_lt.mpr h3)]
  split
  · rename_i heq
    rw [hbc] at heq
    exact absurd heq (Option.some_ne_none bc)
  · rename_i bc' heq
    rw [hbc, Option.some.injEq] at heq
    subst heq
    split
    · rename_i e heq
      have he := runLoop_error_domain _ _ _ heq
      subst he
      rw [runLoop_error_iff] at heq
      refine iff_of_true rfl ?_
      obtain ⟨m, hm, q, hq, hle⟩ := heq
      rw [List.mem_map] at hq
      obtain ⟨p, hp, rfl⟩ := hq
      exact ⟨m, hm, p, hp, hle⟩
    · rename_i Fs heq
      refine iff_of_false ?_ ?_
      · simp only [np_isscalar, Bool.and_false]
        split
        · simp
        · split <;> simp
      · rintro ⟨m, hm, p, hp, hle⟩
        have : runLoop (bc.rk.map fun p => ((X1 p.1 p.2, X2 p.1), X2 p.1 - 0.2))
            iters.toNat = .error PyErr.domainError := by
          rw [runLoop_error_iff]
          exact ⟨m, hm, _, List.mem_map_of_mem _ hp, hle⟩
        rw [this] at heq
        exact Except.noConfusion heq

lemma f_clamond_valid_ok (Rin Kin : PyIn) (iters : ℤ) (bc : Broadcasted)
    (h1 : ∀ r ∈ (np_asarray Rin).elems, 0 < r)
    (h2 : ∀ k ∈ (np_asarray Kin).elems, 0 ≤ k)
    (h3 : 0 ≤ iters)
    (hbc : broadcastRK (np_asarray Rin) (np_asarray Kin) = some bc)
    (hdom : ∀ p ∈ bc.rk, domainOK p.1 p.2 iters.toNat) :
    f_clamond Rin Kin iters =
      ⟨if ∃ r ∈ (np_asarray Rin).elems, r < 2300 then true else false,
       .ok (if bc.scalarShape then
              .nd0 ((bc.rk.map fun p => runElem p.1 p.2 iters.toNat).headI)
            else .nd1 (bc.rk.map fun p => runElem p.1 p.2 iters.toNat))⟩ := by
  have hrl : runLoop (bc.rk.map fun p => ((X1 p.1 p.2, X2 p.1), X2 p.1 - 0.2))
      iters.toNat = .ok (bc.rk.map fun p => Fiter p.1 p.2 iters.toNat) := by
    rw [runLoop_ok_of]
    · rw [List.map_map]
      exact congrArg Except.ok (List.map_congr_left fun p _ => rfl)
    · intro m hm q hq
      rw [List.mem_map] at hq
      obtain ⟨p, hp, rfl⟩ := hq
      exact hdom p hp m hm
  simp only [f_clamond]
  rw [if_neg (not_exists_le_of_pos h1), if_neg (not_exists_lt_of_nonneg h2),
    if_neg (not_lt.mpr h3)]
  split
  · rename_i heq
    rw [hbc] at heq
    exact absurd heq (Option.some_ne_none bc)
  · rename_i bc' heq
    rw [hbc, Option.some.injEq] at heq
    subst heq
    split
    · rename_i e heq2
      rw [hrl] at heq2
      exact absurd heq2 (fun hc => Except.noConfusion hc)
    · rename_i Fs heq2
      rw [hrl, Except.ok.injEq] at heq2
      subst heq2
      simp only [np_isscalar, Bool.and_false, Bool.false_eq_true, if_false,
        List.map_map]
      rw [show List.map ((fun F => (A / F) ^ 2) ∘
            fun p => Fiter p.1 p.2 iters.toNat) bc.rk =
          List.map (fun p => runElem p.1 p.2 iters.toNat) bc.rk from
        List.map_congr_left fun p _ => rfl]
      by_cases hs : bc.scalarShape = true
      · rw [if_pos hs, if_pos hs]
      · rw [if_neg hs, if_neg hs]

/-- Claim C5: in a call that passes argument validation (and whose refinement
stays in the log domain, so that a result is produced), the advisory warning
is emitted iff some element of R is strictly below 2300 — so no warning at
R = 2300 exactly, a warning at R = 2299 — and the computation proceeds to a
normal result in both cases: the result value does not depend on the
warning. -/
theorem C5_turbulence_warning (Rin Kin : PyIn) (iters : ℤ) (bc : Broadcasted)
    (h1 : ∀ r ∈ (np_asarray Rin).elems, 0 < r)
    (h2 : ∀ k ∈ (np_asarray Kin).elems, 0 ≤ k)
    (h3 : 0 ≤ iters)
    (hbc : broadcastRK (np_asarray Rin) (np_asarray Kin) = some bc)
    (hdom : ∀ p ∈ bc.rk, domainOK p.1 p.2 iters.toNat) :
    ((f_clamond Rin Kin iters).warned = true ↔
      ∃ r ∈ (np_asarray Rin).elems, r < 2300) ∧
    ∃ out, (f_clamond Rin Kin iters).result = .ok out := by
  rw [f_clamond_valid_ok Rin Kin iters bc h1 h2 h3 hbc hdom]
  exact ⟨boolIf_eq_true _, _, rfl⟩

/-! ### Elementary numeric bounds used by concrete witnesses -/

lemma log_502_lt : Real.log 5.02 < 2.08 := by
  have h1 : Real.log 5.02 < Real.log 8 :=
    Real.log_lt_log (by norm_num) (by norm_num)
  have h2 : Real.log 8 = 3 * Real.log 2 := by
    rw [show (8 : ℝ) = 2 ^ (3 : ℕ) by norm_num, Real.log_pow]
    push_cast
    ring
  have h3 := Real.log_two_lt_d9
  rw [h2] at h1
  linarith

lemma one_lt_log10 : 1 < Real.log 10 := by
  rw [Real.lt_log_iff_exp_lt (by norm_num)]
  have := Real.exp_one_lt_d9
  linarith

lemma two_lt_log10 : 2 < Real.log 10 := by
  rw [Real.lt_log_iff_exp_lt (by norm_num)]
  have h : Real.exp (2 : ℝ) = Real.exp 1 ^ (2 : ℕ) := by
    rw [Real.exp_one_pow]
    norm_num
  rw [h]
  have h1 := Real.exp_one_lt_d9
  have h2 : (0 : ℝ) < Real.exp 1 := Real.exp_pos 1
  nlinarith

lemma C2_gt : (-2.08 : ℝ) < C2 := by
  unfold C2 LOG10
  have h1 : Real.log (1 / 5.02) = -Real.log 5.02 := by
    rw [one_div, Real.log_inv]
  have h2 : 0 < Real.log (Real.log 10) := Real.log_pos one_lt_log10
  rw [h1]
  have h3 := log_502_lt
  linarith

lemma log_2299_gt : (7 : ℝ) < Real.log 2299 := by
  rw [Real.lt_log_iff_exp_lt (by norm_num)]
  have h : Real.exp (7 : ℝ) = Real.exp 1 ^ (7 : ℕ) := by
    rw [Real.exp_one_pow]
    norm_num
  rw [h]
  calc Real.exp 1 ^ (7 : ℕ) ≤ 2.7182818286 ^ (7 : ℕ) := by
        gcongr
        exact Real.exp_one_lt_d9.le
    _ < 2299 := by norm_num

lemma X1_zero (R : ℝ) : X1 R 0 = 0 := by
  unfold X1
  ring

lemma domainOK_one_of_s_pos (R : ℝ) (h : 0 < Real.log R + C2 - 0.2) :
    domainOK R 0 1 := by
  intro n hn
  have hn0 : n = 0 := Nat.lt_one_iff.mp hn
  subst hn0
  rw [X1_zero]
  have hf : Fiter R 0 0 = X2 R - 0.2 := rfl
  rw [hf]
  have hx2 : X2 R = Real.log R + C2 := rfl
  rw [hx2]
  linarith

lemma domainOK_2299 : domainOK 2299 0 1 := by
  apply domainOK_one_of_s_pos
  have h1 := log_2299_gt
  have h2 := C2_gt
  linarith

theorem C4_log_domain_check_witness :
    (∀ r ∈ (np_asarray (PyIn.scalar 10)).elems, 0 < r) ∧
    (∀ k ∈ (np_asarray (PyIn.scalar 0)).elems, 0 ≤ k) ∧
    ((0 : ℤ) ≤ 1) ∧
    broadcastRK (np_asarray (PyIn.scalar 10)) (np_asarray (PyIn.scalar 0)) =
      some ⟨true, [(10, 0)]⟩ ∧
    ((f_clamond (PyIn.scalar 10) (PyIn.scalar 0) 1).result =
        .error .domainError ↔
      ∃ n < (1 : ℤ).toNat, ∃ p ∈ [((10 : ℝ), (0 : ℝ))],
        X1 p.1 p.2 + Fiter p.1 p.2 n ≤ 0) := by
  refine ⟨?_, ?_, by norm_num, rfl, ?_⟩
  · intro r hr
    rw [show (np_asarray (PyIn.scalar 10)).elems = [(10 : ℝ)] from rfl,
      List.mem_singleton] at hr
    rw [hr]
    norm_num
  · intro k hk
    rw [show (np_asarray (PyIn.scalar 0)).elems = [(0 : ℝ)] from rfl,
      List.mem_singleton] at hk
    rw [hk]
  · exact C4_log_domain_check (PyIn.scalar 10) (PyIn.scalar 0) 1
      ⟨true, [(10, 0)]⟩
      (by intro r hr
          rw [show (np_asarray (PyIn.scalar 10)).elems = [(10 : ℝ)] from rfl,
            List.mem_singleton] at hr
          rw [hr]
          norm_num)
      (by intro k hk
          rw [show (np_asarray (PyIn.scalar 0)).elems = [(0 : ℝ)] from rfl,
            List.mem_singleton] at hk
          rw [hk])
      (by norm_num) rfl

theorem C5_turbulence_warning_witness :
    (∀ r ∈ (np_asarray (PyIn.scalar 2299)).elems, 0 < r) ∧
    (∀ k ∈ (np_asarray (PyIn.scalar 0)).elems, 0 ≤ k) ∧
    ((0 : ℤ) ≤ 1) ∧
    broadcastRK (np_asarray (PyIn.scalar 2299)) (np_asarray (PyIn.scalar 0)) =
      some ⟨true, [(2299, 0)]⟩ ∧
    (∀ p ∈ (⟨true, [(2299, 0)]⟩ : Broadcasted).rk,
      domainOK p.1 p.2 (1 : ℤ).toNat) ∧
    (((f_clamond (PyIn.scalar 2299) (PyIn.scalar 0) 1).warned = true ↔
        ∃ r ∈ (np_asarray (PyIn.scalar 2299)).elems, r < 2300) ∧
      ∃ out, (f_clamond (PyIn.scalar 2299) (PyIn.scalar 0) 1).result =
        .ok out) := by
  have hdom : ∀ p ∈ (⟨true, [(2299, 0)]⟩ : Broadcasted).rk,
      domainOK p.1 p.2 (1 : ℤ).toNat := by
    intro p hp
    rw [show (⟨true, [(2299, 0)]⟩ : Broadcasted).rk = [((2299 : ℝ), (0 : ℝ))]
      from rfl, List.mem_singleton] at hp
    rw [hp]
    exact domainOK_2299
  have h1 : ∀ r ∈ (np_asarray (PyIn.scalar 2299)).elems, (0 : ℝ) < r := by
    intro r hr
    rw [show (np_asarray (PyIn.scalar 2299)).elems = [(2299 : ℝ)] from rfl,
      List.mem_singleton] at hr
    rw [hr]
    norm_num
  have h2 : ∀ k ∈ (np_asarray (PyIn.scalar 0)).elems, (0 : ℝ) ≤ k := by
    intro k hk
    rw [show (np_asarray (PyIn.scalar 0)).elems = [(0 : ℝ)] from rfl,
      List.mem_singleton] at hk
    rw [hk]
  exact ⟨h1, h2, by norm_num, rfl, hdom,
    C5_turbulence_warning (PyIn.scalar 2299) (PyIn.scalar 0) 1
      ⟨true, [(2299, 0)]⟩ h1 h2 (by norm_num) rfl hdom⟩

lemma f_clamond_domain_error_of (Rin Kin : PyIn) (iters : ℤ) (bc : Broadcasted)
    (h1 : ∀ r ∈ (np_asarray Rin).elems, 0 < r)
    (h2 : ∀ k ∈ (np_asarray Kin).elems, 0 ≤ k)
    (h3 : 0 ≤ iters)
    (hbc : broadcastRK (np_asarray Rin) (np_asarray Kin) = some bc)
    (hbad : ∃ n < iters.toNat, ∃ p ∈ bc.rk, X1 p.1 p.2 + Fiter p.1 p.2 n ≤ 0) :
    (f_clamond Rin Kin iters).result = .error .domainError := by
  simp only [f_clamond]
  rw [if_neg (not_exists_le_of_pos h1), if_neg (not_exists_lt_of_nonneg h2),
    if_neg (not_lt.mpr h3)]
  have hrl : runLoop (bc.rk.map fun p => ((X1 p.1 p.2, X2 p.1), X2 p.1 - 0.2))
      iters.toNat = .error .domainError := by
    rw [runLoop_error_iff]
    obtain ⟨n, hn, p, hp, hle⟩ := hbad
    exact ⟨n, hn, _, List.mem_map_of_mem _ hp, hle⟩
  split
  · rename_i heq
    rw [hbc] at heq
    exact absurd heq (Option.some_ne_none bc)
  · rename_i bc' heq
    rw [hbc, Option.some.injEq] at heq
    subst heq
    split
    · rename_i e heq2
      rw [hrl] at heq2
      cases heq2
      rfl
    · rename_i Fs heq2
      rw [hrl] at heq2
      exact absurd heq2 (fun hc => Except.noConfusion hc)

/-- Claim C9: array/scalar element-wise consistency — whenever an array call
with scalar K returns an array, that array is exactly the element-wise map
r ↦ runElem r K iters of the scalar kernel, and the scalar call on each
element returns exactly the corresponding element (as a 0-d array, per
C2's scalar-return bug): the scalar math does not vary between the scalar
and array code paths. -/
theorem C9_elementwise_consistency (Rs : List ℝ) (K : ℝ) (iters : ℤ)
    (out : List ℝ)
    (h : (f_clamond (.array Rs) (.scalar K) iters).result = .ok (.nd1 out)) :
    out = Rs.map (fun r => runElem r K iters.toNat) ∧
    ∀ r ∈ Rs, (f_clamond (.scalar r) (.scalar K) iters).result =
      .ok (.nd0 (runElem r K iters.toNat)) := by
  have h1 : ∀ r ∈ Rs, 0 < r := by
    by_contra hc
    push_neg at hc
    obtain ⟨r, hr, hle⟩ := hc
    have he := f_clamond_eq_invalid (.array Rs) (.scalar K) iters
      (Or.inl ⟨r, hr, hle⟩)
    rw [he] at h
    exact Except.noConfusion h
  have h2 : (0 : ℝ) ≤ K := by
    by_contra hc
    push_neg at hc
    have he := f_clamond_eq_invalid (.array Rs) (.scalar K) iters
      (Or.inr (Or.inl ⟨K, List.mem_singleton.mpr rfl, hc⟩))
    rw [he] at h
    exact Except.noConfusion h
  have h3 : (0 : ℤ) ≤ iters := by
    by_contra hc
    push_neg at hc
    have he := f_clamond_eq_invalid (.array Rs) (.scalar K) iters
      (Or.inr (Or.inr hc))
    rw [he] at h
    exact Except.noConfusion h
  have h2' : ∀ k ∈ (np_asarray (PyIn.scalar K)).elems, 0 ≤ k := by
    intro k hk
    rw [show (np_asarray (PyIn.scalar K)).elems = [K] from rfl,
      List.mem_singleton] at hk
    rw [hk]
    exact h2
  have hbc : broadcastRK (np_asarray (PyIn.array Rs))
      (np_asarray (PyIn.scalar K)) =
      some ⟨false, Rs.map fun r => (r, K)⟩ := rfl
  have hdom : ∀ p ∈ (Rs.map fun r => (r, K)), domainOK p.1 p.2 iters.toNat := by
    by_contra hc
    push_neg at hc
    obtain ⟨p, hp, hnd⟩ := hc
    unfold domainOK at hnd
    push_neg at hnd
    obtain ⟨n, hn, hle⟩ := hnd
    have he := f_clamond_domain_error_of (.array Rs) (.scalar K) iters
      ⟨false, Rs.map fun r => (r, K)⟩ h1 h2' h3 hbc ⟨n, hn, p, hp, hle⟩
    rw [he] at h
    exact Except.noConfusion h
  have hok := f_clamond_valid_ok (.array Rs) (.scalar K) iters
    ⟨false, Rs.map fun r => (r, K)⟩ h1 h2' h3 hbc hdom
  rw [hok] at h
  simp only [Bool.false_eq_true, if_false] at h
  have hout : PyOut.nd1 ((Rs.map fun r => (r, K)).map
      fun p => runElem p.1 p.2 iters.toNat) = .nd1 out := by
    exact (Except.ok.injEq _ _).mp h
  have hout2 : out = Rs.map fun r => runElem r K iters.toNat := by
    have := (PyOut.nd1.injEq _ _).mp hout
    rw [← this, List.map_map]
    exact (List.map_congr_left fun r _ => rfl).symm
  refine ⟨hout2, fun r hr => ?_⟩
  have hsc := f_clamond_scalar_eq r K iters.toNat (h1 r hr) h2
    (hdom (r, K) (List.mem_map_of_mem _ hr))
  rw [Int.toNat_of_nonneg h3] at hsc
  rw [hsc]

theorem C9_elementwise_consistency_witness :
    ((f_clamond (.array [3000, 700000]) (.scalar 0.01) ((0 : ℕ) : ℤ)).result =
      .ok (.nd1 ([3000, 700000].map fun r => runElem r 0.01 0))) ∧
    (([3000, 700000].map fun r => runElem r 0.01 0) =
        [(3000 : ℝ), 700000].map (fun r => runElem r 0.01 (((0 : ℕ) : ℤ)).toNat) ∧
      ∀ r ∈ [(3000 : ℝ), 700000],
        (f_clamond (.scalar r) (.scalar 0.01) ((0 : ℕ) : ℤ)).result =
          .ok (.nd0 (runElem r 0.01 (((0 : ℕ) : ℤ)).toNat))) := by
  have h : (f_clamond (.array [3000, 700000]) (.scalar 0.01)
      ((0 : ℕ) : ℤ)).result =
      .ok (.nd1 ([3000, 700000].map fun r => runElem r 0.01 0)) := by
    rw [f_clamond_array_scalar_eq [3000, 700000] 0.01 0
      (by intro r hr
          rw [List.mem_cons, List.mem_singleton] at hr
          rcases hr with rfl | rfl <;> norm_num)
      (by norm_num)
      (fun r _ n hn => absurd hn (Nat.not_lt_zero n))]
  exact ⟨h, C9_elementwise_consistency [3000, 700000] 0.01 ((0 : ℕ) : ℤ) _ h⟩

/-! ### Tight logarithm bounds (Taylor series with explicit remainder)

Used to evaluate the sign of one refinement step at the two interval ends
R = 2.8 and R = 10 for the analysis of claim C8. -/

lemma log_125_bounds :
    (0.2231432 : ℝ) < Real.log 1.25 ∧ Real.log 1.25 < 0.2231439 := by
  have hx : |(-(1/4) : ℝ)| < 1 := by
    rw [abs_of_nonpos (by norm_num)]
    norm_num
  have h := Real.abs_log_sub_add_sum_range_le hx 10
  rw [abs_le] at h
  obtain ⟨h1, h2⟩ := h
  rw [show (1 : ℝ) - -(1/4) = 1.25 by norm_num,
    show |(-(1/4) : ℝ)| = 1/4 by rw [abs_of_nonpos (by norm_num)]; norm_num]
    at h1 h2
  simp only [Finset.sum_range_succ, Finset.sum_range_zero] at h1 h2
  norm_num at h1 h2
  constructor <;> linarith

lemma log10_bounds :
    (2.3025847 : ℝ) < Real.log 10 ∧ Real.log 10 < 2.3025855 := by
  have hsplit : Real.log 10 = 3 * Real.log 2 + Real.log 1.25 := by
    rw [show (10 : ℝ) = 2 ^ (3 : ℕ) * 1.25 by norm_num,
      Real.log_mul (by norm_num) (by norm_num), Real.log_pow]
    norm_num
  obtain ⟨h1, h2⟩ := log_125_bounds
  have hl := Real.log_two_gt_d9
  have hu := Real.log_two_lt_d9
  rw [hsplit]
  constructor <;> linarith

lemma log_1255_bounds :
    (0.22713554 : ℝ) < Real.log 1.255 ∧ Real.log 1.255 < 0.22713560 := by
  have hx : |(-0.255 : ℝ)| < 1 := by
    rw [abs_of_nonpos (by norm_num)]
    norm_num
  have h := Real.abs_log_sub_add_sum_range_le hx 12
  rw [abs_le] at h
  obtain ⟨h1, h2⟩ := h
  rw [show (1 : ℝ) - -0.255 = 1.255 by norm_num,
    show |(-0.255 : ℝ)| = 0.255 by rw [abs_of_nonpos (by norm_num)]; norm_num]
    at h1 h2
  simp only [Finset.sum_range_succ, Finset.sum_range_zero] at h1 h2
  norm_num at h1 h2
  constructor <;> linarith

lemma log502_bounds :
    (1.6134299 : ℝ) < Real.log 5.02 ∧ Real.log 5.02 < 1.6134300 := by
  have hsplit : Real.log 5.02 = 2 * Real.log 2 + Real.log 1.255 := by
    rw [show (5.02 : ℝ) = 2 ^ (2 : ℕ) * 1.255 by norm_num,
      Real.log_mul (by norm_num) (by norm_num), Real.log_pow]
    norm_num
  obtain ⟨h1, h2⟩ := log_1255_bounds
  have hl := Real.log_two_gt_d9
  have hu := Real.log_two_lt_d9
  rw [hsplit]
  constructor <;> linarith

lemma loglog10_bounds :
    (0.8340322 : ℝ) < Real.log (Real.log 10) ∧
      Real.log (Real.log 10) < 0.8340327 := by
  obtain ⟨hl, hu⟩ := log10_bounds
  constructor
  · have hmono : Real.log 2.3025847 < Real.log (Real.log 10) :=
      Real.log_lt_log (by norm_num) hl
    have hx : |(-0.15129235 : ℝ)| < 1 := by
      rw [abs_of_nonpos (by norm_num)]
      norm_num
    have h := Real.abs_log_sub_add_sum_range_le hx 12
    rw [abs_le] at h
    have h1 := h.1
    rw [show (1 : ℝ) - -0.15129235 = 1.15129235 by norm_num,
      show |(-0.15129235 : ℝ)| = 0.15129235 by
        rw [abs_of_nonpos (by norm_num)]; norm_num] at h1
    have hsplit : Real.log 2.3025847 = Real.log 2 + Real.log 1.15129235 := by
      rw [← Real.log_mul (by norm_num) (by norm_num)]
      norm_num
    have hl2 := Real.log_two_gt_d9
    simp only [Finset.sum_range_succ, Finset.sum_range_zero] at h1
    norm_num at h1
    rw [hsplit] at hmono
    linarith
  · have hmono : Real.log (Real.log 10) < Real.log 2.3025855 :=
      Real.log_lt_log (by linarith [one_lt_log10]) hu
    have hx : |(-0.15129275 : ℝ)| < 1 := by
      rw [abs_of_nonpos (by norm_num)]
      norm_num
    have h := Real.abs_log_sub_add_sum_range_le hx 12
    rw [abs_le] at h
    have h2 := h.2
    rw [show (1 : ℝ) - -0.15129275 = 1.15129275 by norm_num,
      show |(-0.15129275 : ℝ)| = 0.15129275 by
        rw [abs_of_nonpos (by norm_num)]; norm_num] at h2
    have hsplit : Real.log 2.3025855 = Real.log 2 + Real.log 1.15129275 := by
      rw [← Real.log_mul (by norm_num) (by norm_num)]
      norm_num
    have hu2 := Real.log_two_lt_d9
    simp only [Finset.sum_range_succ, Finset.sum_range_zero] at h2
    norm_num at h2
    rw [hsplit] at hmono
    linarith

lemma C2_bounds : (-0.7793978 : ℝ) < C2 ∧ C2 < -0.7793972 := by
  have hsplit : C2 = -Real.log 5.02 + Real.log (Real.log 10) := by
    unfold C2 LOG10
    rw [one_div, Real.log_inv]
  obtain ⟨h1, h2⟩ := log502_bounds
  obtain ⟨h3, h4⟩ := loglog10_bounds
  rw [hsplit]
  constructor <;> linarith

lemma log28_bounds :
    (1.0296194 : ℝ) < Real.log 2.8 ∧ Real.log 2.8 < 1.0296195 := by
  have hx : |(0.3 : ℝ)| < 1 := by
    rw [abs_of_nonneg (by norm_num)]
    norm_num
  have h := Real.abs_log_sub_add_sum_range_le hx 16
  rw [abs_le] at h
  obtain ⟨h1, h2⟩ := h
  rw [show (1 : ℝ) - 0.3 = 0.7 by norm_num,
    show |(0.3 : ℝ)| = 0.3 by rw [abs_of_nonneg (by norm_num)]] at h1 h2
  have hsplit : Real.log 2.8 = 2 * Real.log 2 + Real.log 0.7 := by
    rw [show (2.8 : ℝ) = 2 ^ (2 : ℕ) * 0.7 by norm_num,
      Real.log_mul (by norm_num) (by norm_num), Real.log_pow]
    norm_num
  have hl := Real.log_two_gt_d9
  have hu := Real.log_two_lt_d9
  simp only [Finset.sum_range_succ, Finset.sum_range_zero] at h1 h2
  norm_num at h1 h2
  rw [hsplit]
  constructor <;> linarith

lemma sOf28_bounds : (0.0502216 : ℝ) < sOf 2.8 ∧ sOf 2.8 < 0.0502223 := by
  obtain ⟨h1, h2⟩ := log28_bounds
  obtain ⟨h3, h4⟩ := C2_bounds
  unfold sOf
  constructor <;> linarith

lemma log_s28_lo : (-2.9913222 : ℝ) < Real.log 0.050221 := by
  have hx : |(0.196464 : ℝ)| < 1 := by
    rw [abs_of_nonneg (by norm_num)]
    norm_num
  have h := Real.abs_log_sub_add_sum_range_le hx 14
  rw [abs_le] at h
  have h1 := h.1
  rw [show (1 : ℝ) - 0.196464 = 0.803536 by norm_num,
    show |(0.196464 : ℝ)| = 0.196464 by rw [abs_of_nonneg (by norm_num)]] at h1
  have hsplit : Real.log 0.050221 = Real.log 0.803536 - 4 * Real.log 2 := by
    rw [show (0.050221 : ℝ) = 0.803536 / 2 ^ (4 : ℕ) by norm_num,
      Real.log_div (by norm_num) (by norm_num), Real.log_pow]
    norm_num
  have hu := Real.log_two_lt_d9
  simp only [Finset.sum_range_succ, Finset.sum_range_zero] at h1
  norm_num at h1
  rw [hsplit]
  linarith

lemma log_s28_hi : Real.log 0.050223 < -2.99128 := by
  have hx : |(0.196432 : ℝ)| < 1 := by
    rw [abs_of_nonneg (by norm_num)]
    norm_num
  have h := Real.abs_log_sub_add_sum_range_le hx 14
  rw [abs_le] at h
  have h2 := h.2
  rw [show (1 : ℝ) - 0.196432 = 0.803568 by norm_num,
    show |(0.196432 : ℝ)| = 0.196432 by rw [abs_of_nonneg (by norm_num)]] at h2
  have hsplit : Real.log 0.050223 = Real.log 0.803568 - 4 * Real.log 2 := by
    rw [show (0.050223 : ℝ) = 0.803568 / 2 ^ (4 : ℕ) by norm_num,
      Real.log_div (by norm_num) (by norm_num), Real.log_pow]
    norm_num
  have hl := Real.log_two_gt_d9
  simp only [Finset.sum_range_succ, Finset.sum_range_zero] at h2
  norm_num at h2
  rw [hsplit]
  linarith

lemma sOf10_bounds : (1.3231869 : ℝ) < sOf 10 ∧ sOf 10 < 1.3231883 := by
  obtain ⟨h1, h2⟩ := log10_bounds
  obtain ⟨h3, h4⟩ := C2_bounds
  unfold sOf
  constructor <;> linarith

lemma log_sB_lo : (0.2800423 : ℝ) < Real.log 1.323186 := by
  have hx : |(0.338407 : ℝ)| < 1 := by
    rw [abs_of_nonneg (by norm_num)]
    norm_num
  have h := Real.abs_log_sub_add_sum_range_le hx 14
  rw [abs_le] at h
  have h1 := h.1
  rw [show (1 : ℝ) - 0.338407 = 0.661593 by norm_num,
    show |(0.338407 : ℝ)| = 0.338407 by rw [abs_of_nonneg (by norm_num)]] at h1
  have hsplit : Real.log 1.323186 = Real.log 2 + Real.log 0.661593 := by
    rw [← Real.log_mul (by norm_num) (by norm_num)]
    norm_num
  have hl := Real.log_two_gt_d9
  simp only [Finset.sum_range_succ, Finset.sum_range_zero] at h1
  norm_num at h1
  rw [hsplit]
  linarith

lemma log_sB_hi : Real.log 1.323189 < 0.2800449 := by
  have hx : |(0.3384055 : ℝ)| < 1 := by
    rw [abs_of_nonneg (by norm_num)]
    norm_num
  have h := Real.abs_log_sub_add_sum_range_le hx 14
  rw [abs_le] at h
  have h2 := h.2
  rw [show (1 : ℝ) - 0.3384055 = 0.6615945 by norm_num,
    show |(0.3384055 : ℝ)| = 0.3384055 by rw [abs_of_nonneg (by norm_num)]] at h2
  have hsplit : Real.log 1.323189 = Real.log 2 + Real.log 0.6615945 := by
    rw [← Real.log_mul (by norm_num) (by norm_num)]
    norm_num
  have hu := Real.log_two_lt_d9
  simp only [Finset.sum_range_succ, Finset.sum_range_zero] at h2
  norm_num at h2
  rw [hsplit]
  linarith

/-! ### Interval products -/

lemma neg_box_mul_lo (x y a b c d q : ℝ) (hxa : a < x) (hxb : x < b)
    (hyc : c < y) (hyd : y < d) (hb : b ≤ 0) (hd : d ≤ 0) (hq : q ≤ b * d) :
    q < x * y := by
  nlinarith [mul_pos_of_neg_of_neg (lt_of_lt_of_le hxb hb)
    (lt_of_lt_of_le hyd hd)]

lemma neg_box_mul_hi (x y a b c d q : ℝ) (hxa : a < x) (hxb : x < b)
    (hyc : c < y) (hyd : y < d) (hb : b ≤ 0) (hd : d ≤ 0) (hq : a * c ≤ q) :
    x * y < q := by
  nlinarith [mul_pos (sub_pos.mpr hxa) (sub_pos.mpr hyc)]

lemma pos_box_mul_lo (x y a b c d q : ℝ) (hxa : a < x) (hxb : x < b)
    (hyc : c < y) (hyd : y < d) (ha : 0 ≤ a) (hc : 0 ≤ c) (hq : q ≤ a * c) :
    q < x * y := by
  nlinarith [mul_pos (sub_pos.mpr hxa) (sub_pos.mpr hyc)]

lemma pos_box_mul_hi (x y a b c d q : ℝ) (hxa : a < x) (hxb : x < b)
    (hyc : c < y) (hyd : y < d) (ha : 0 ≤ a) (hc : 0 ≤ c) (hq : b * d ≤ q) :
    x * y < q := by
  nlinarith [mul_pos (sub_pos.mpr (lt_of_le_of_lt ha hxa))
    (sub_pos.mpr (lt_of_le_of_lt hc hyc))]

/-! ### Sign of one refinement step at the interval ends -/

lemma gOf_28_neg : gOf 2.8 < 0 := by
  obtain ⟨hs1, hs2⟩ := sOf28_bounds
  have hlog_lo : (-2.9913222 : ℝ) < Real.log (sOf 2.8) := by
    have hm : Real.log 0.050221 < Real.log (sOf 2.8) :=
      Real.log_lt_log (by norm_num) (by linarith)
    linarith [log_s28_lo]
  have hlog_hi : Real.log (sOf 2.8) < -2.99128 := by
    have hm : Real.log (sOf 2.8) < Real.log 0.050223 :=
      Real.log_lt_log (by linarith) (by linarith)
    linarith [log_s28_hi]
  have hden : (0 : ℝ) < 1 + sOf 2.8 := by linarith
  have hE_lo : (-3.038714 : ℝ) < EOf 2.8 := by
    unfold EOf
    rw [lt_div_iff₀ hden]
    linarith
  have hE_hi : EOf 2.8 < -3.03867 := by
    unfold EOf
    rw [div_lt_iff₀ hden]
    linarith
  have hP1_lo : (-0.469136 : ℝ) < 1 + sOf 2.8 + 0.5 * EOf 2.8 := by linarith
  have hP1_hi : 1 + sOf 2.8 + 0.5 * EOf 2.8 < -0.469112 := by linarith
  have hP2_lo : (1.425476 : ℝ) < (1 + sOf 2.8 + 0.5 * EOf 2.8) * EOf 2.8 :=
    neg_box_mul_lo _ _ (-0.469136) (-0.469112) (-3.038714) (-3.03867) _
      hP1_lo hP1_hi hE_lo hE_hi (by norm_num) (by norm_num) (by norm_num)
  have hP2_hi : (1 + sOf 2.8 + 0.5 * EOf 2.8) * EOf 2.8 < 1.425571 :=
    neg_box_mul_hi _ _ (-0.469136) (-0.469112) (-3.038714) (-3.03867) _
      hP1_lo hP1_hi hE_lo hE_hi (by norm_num) (by norm_num) (by norm_num)
  have hN_lo : (0.0715896 : ℝ) <
      (1 + sOf 2.8 + 0.5 * EOf 2.8) * EOf 2.8 * sOf 2.8 :=
    pos_box_mul_lo _ _ 1.425476 1.425571 0.0502216 0.0502223 _
      hP2_lo hP2_hi hs1 hs2 (by norm_num) (by norm_num) (by norm_num)
  have hE2_lo : (9.233515 : ℝ) < EOf 2.8 * EOf 2.8 :=
    neg_box_mul_lo _ _ (-3.038714) (-3.03867) (-3.038714) (-3.03867) _
      hE_lo hE_hi hE_lo hE_hi (by norm_num) (by norm_num) (by norm_num)
  have hE2_hi : EOf 2.8 * EOf 2.8 < 9.233783 :=
    neg_box_mul_hi _ _ (-3.038714) (-3.03867) (-3.038714) (-3.03867) _
      hE_lo hE_hi hE_lo hE_hi (by norm_num) (by norm_num) (by norm_num)
  have hexp : EOf 2.8 * (1 + EOf 2.8 / 3) =
      EOf 2.8 + EOf 2.8 * EOf 2.8 / 3 := by ring
  have hD_hi : 1 + sOf 2.8 + EOf 2.8 * (1 + EOf 2.8 / 3) < 1.08948 := by
    rw [hexp]
    linarith
  have hD_pos : (0 : ℝ) < 1 + sOf 2.8 + EOf 2.8 * (1 + EOf 2.8 / 3) := by
    rw [hexp]
    linarith
  have hSD : sOf 2.8 * (1 + sOf 2.8 + EOf 2.8 * (1 + EOf 2.8 / 3)) <
      0.0547162 :=
    pos_box_mul_hi _ _ 0.0502216 0.0502223 0 1.08948 _ hs1 hs2 hD_pos hD_hi
      (by norm_num) (by norm_num) (by norm_num)
  unfold gOf
  rw [sub_neg, lt_div_iff₀ hD_pos]
  linarith

lemma gOf_10_pos : 0 < gOf 10 := by
  obtain ⟨hs1, hs2⟩ := sOf10_bounds
  have hlog_lo : (0.2800423 : ℝ) < Real.log (sOf 10) := by
    have hm : Real.log 1.323186 < Real.log (sOf 10) :=
      Real.log_lt_log (by norm_num) (by linarith)
    linarith [log_sB_lo]
  have hlog_hi : Real.log (sOf 10) < 0.2800449 := by
    have hm : Real.log (sOf 10) < Real.log 1.323189 :=
      Real.log_lt_log (by linarith) (by linarith)
    linarith [log_sB_hi]
  have hden : (0 : ℝ) < 1 + sOf 10 := by linarith
  have hE_lo : (0.034453 : ℝ) < EOf 10 := by
    unfold EOf
    rw [lt_div_iff₀ hden]
    linarith
  have hE_hi : EOf 10 < 0.034455 := by
    unfold EOf
    rw [div_lt_iff₀ hden]
    linarith
  have hP1_lo : (2.340413 : ℝ) < 1 + sOf 10 + 0.5 * EOf 10 := by linarith
  have hP1_hi : 1 + sOf 10 + 0.5 * EOf 10 < 2.340416 := by linarith
  have hP2_lo : (0.080634 : ℝ) < (1 + sOf 10 + 0.5 * EOf 10) * EOf 10 :=
    pos_box_mul_lo _ _ 2.340413 2.340416 0.034453 0.034455 _
      hP1_lo hP1_hi hE_lo hE_hi (by norm_num) (by norm_num) (by norm_num)
  have hP2_hi : (1 + sOf 10 + 0.5 * EOf 10) * EOf 10 < 0.08064 :=
    pos_box_mul_hi _ _ 2.340413 2.340416 0.034453 0.034455 _
      hP1_lo hP1_hi hE_lo hE_hi (by norm_num) (by norm_num) (by norm_num)
  have hN_hi : (1 + sOf 10 + 0.5 * EOf 10) * EOf 10 * sOf 10 < 0.106702 :=
    pos_box_mul_hi _ _ 0.080634 0.08064 1.3231869 1.3231883 _
      hP2_lo hP2_hi hs1 hs2 (by norm_num) (by norm_num) (by norm_num)
  have hE2_lo : (0.001187 : ℝ) < EOf 10 * EOf 10 :=
    pos_box_mul_lo _ _ 0.034453 0.034455 0.034453 0.034455 _
      hE_lo hE_hi hE_lo hE_hi (by norm_num) (by norm_num) (by norm_num)
  have hE2_hi : EOf 10 * EOf 10 < 0.0011872 :=
    pos_box_mul_hi _ _ 0.034453 0.034455 0.034453 0.034455 _
      hE_lo hE_hi hE_lo hE_hi (by norm_num) (by norm_num) (by norm_num)
  have hexp : EOf 10 * (1 + EOf 10 / 3) =
      EOf 10 + EOf 10 * EOf 10 / 3 := by ring
  have hD_lo : (2.358035 : ℝ) <
      1 + sOf 10 + EOf 10 * (1 + EOf 10 / 3) := by
    rw [hexp]
    linarith
  have hD_pos : (0 : ℝ) < 1 + sOf 10 + EOf 10 * (1 + EOf 10 / 3) := by
    linarith
  have hSD : (3.1201 : ℝ) <
      sOf 10 * (1 + sOf 10 + EOf 10 * (1 + EOf 10 / 3)) :=
    pos_box_mul_lo _ _ 1.3231869 1.3231883 2.358035 2.3581 _ hs1 hs2 hD_lo
      (by rw [hexp]; linarith) (by norm_num) (by norm_num) (by norm_num)
  unfold gOf
  rw [sub_pos, div_lt_iff₀ hD_pos]
  linarith

/-! ### One step at K = 0, continuity, and the intermediate value argument -/

lemma D_pos_of (s E : ℝ) (hs : 0 < s) : 0 < 1 + s + E * (1 + E / 3) := by
  nlinarith [sq_nonneg (E + 3 / 2)]

lemma sOf_pos_on : ∀ R ∈ Set.Icc (2.8 : ℝ) 10, 0 < sOf R := by
  intro R hR
  have h1 : Real.log 2.8 ≤ Real.log R := Real.log_le_log (by norm_num) hR.1
  obtain ⟨hs1, _⟩ := sOf28_bounds
  unfold sOf at hs1 ⊢
  linarith

lemma mem_Icc_log_ne (x : ℝ) (hx : x ∈ Set.Icc (2.8 : ℝ) 10) : x ≠ 0 :=
  ne_of_gt (lt_of_lt_of_le (by norm_num) hx.1)

lemma continuousOn_sOf : ContinuousOn sOf (Set.Icc (2.8 : ℝ) 10) := by
  unfold sOf
  exact ((Real.continuousOn_log.mono fun x hx =>
    Set.mem_compl_singleton_iff.mpr (mem_Icc_log_ne x hx)).add
    continuousOn_const).sub continuousOn_const

lemma continuousOn_EOf : ContinuousOn EOf (Set.Icc (2.8 : ℝ) 10) := by
  unfold EOf
  exact ((continuousOn_sOf.log fun x hx =>
      ne_of_gt (sOf_pos_on x hx)).sub continuousOn_const).div
    (continuousOn_const.add continuousOn_sOf)
    fun x hx => ne_of_gt (by linarith [sOf_pos_on x hx])

lemma continuousOn_gOf : ContinuousOn gOf (Set.Icc (2.8 : ℝ) 10) := by
  unfold gOf
  refine continuousOn_sOf.sub (ContinuousOn.div ?_ ?_ ?_)
  · exact (((continuousOn_const.add continuousOn_sOf).add
      (continuousOn_const.mul continuousOn_EOf)).mul continuousOn_EOf).mul
      continuousOn_sOf
  · exact (continuousOn_const.add continuousOn_sOf).add
      (continuousOn_EOf.mul (continuousOn_const.add
        (continuousOn_EOf.div_const 3)))
  · exact fun x hx => ne_of_gt (D_pos_of _ _ (sOf_pos_on x hx))

lemma Fiter_one_K0 (R : ℝ) : Fiter R 0 1 = gOf R := by
  show stepF (X1 R 0) (X2 R) (X2 R - 0.2) = gOf R
  rw [X1_zero]
  unfold stepF stepE gOf EOf sOf
  rw [show X2 R = Real.log R + C2 from rfl]
  simp only [zero_add, add_zero]
  ring_nf

lemma exists_gOf_zero : ∃ R ∈ Set.Icc (2.8 : ℝ) 10, gOf R = 0 := by
  have hsub := intermediate_value_Icc (by norm_num : (2.8 : ℝ) ≤ 10)
    continuousOn_gOf
  have h0 : (0 : ℝ) ∈ Set.Icc (gOf 2.8) (gOf 10) :=
    ⟨gOf_28_neg.le, gOf_10_pos.le⟩
  obtain ⟨R, hR, hgR⟩ := hsub h0
  exact ⟨R, hR, hgR⟩

/-- Claim C8 (counterexample): a valid input violating strict positivity —
for some R between 2.8 and 10 (where the single quartic step lands exactly
on F = 0, by the intermediate value theorem), K = 0 ≥ 0 and iters = 1 ≥ 1,
the call succeeds and the returned element is (A/0)², i.e. 0 in exact real
arithmetic (the float code divides by zero there and returns inf, which is
not finite either). -/
theorem C8_counterexample : ∃ R : ℝ, 0 < R ∧ 2.8 ≤ R ∧ R ≤ 10 ∧
    (f_clamond (.scalar R) (.scalar 0) ((1 : ℕ) : ℤ)).result =
      .ok (.nd0 0) := by
  obtain ⟨R, hR, hgR⟩ := exists_gOf_zero
  have hRpos : (0 : ℝ) < R := lt_of_lt_of_le (by norm_num) hR.1
  have hdom : domainOK R 0 1 := by
    apply domainOK_one_of_s_pos
    have h1 : Real.log 2.8 ≤ Real.log R := Real.log_le_log (by norm_num) hR.1
    obtain ⟨hs1, _⟩ := sOf28_bounds
    unfold sOf at hs1
    linarith
  have heq := f_clamond_scalar_eq R 0 1 hRpos (le_refl 0) hdom
  refine ⟨R, hRpos, hR.1, hR.2, ?_⟩
  rw [heq]
  have hrun : runElem R 0 1 = 0 := by
    unfold runElem
    rw [show Fiter R 0 1 = (0 : ℝ) from (Fiter_one_K0 R).trans hgR, div_zero]
    norm_num
  show Except.ok (PyOut.nd0 (runElem R 0 1)) = Except.ok (PyOut.nd0 0)
  rw [hrun]

lemma headI_nonneg (l : List ℝ) (h : ∀ y ∈ l, 0 ≤ y) : 0 ≤ l.headI := by
  cases l with
  | nil => exact le_refl 0
  | cons a t => exact h a (List.mem_cons_self a t)

lemma f_clamond_ok_shape (Rin Kin : PyIn) (iters : ℤ) (out : PyOut)
    (h : (f_clamond Rin Kin iters).result = .ok out) :
    ∃ Fs : List ℝ,
      out = .pyfloat ((Fs.map fun F => (A / F) ^ 2).headI) ∨
      out = .nd0 ((Fs.map fun F => (A / F) ^ 2).headI) ∨
      out = .nd1 (Fs.map fun F => (A / F) ^ 2) := by
  simp only [f_clamond] at h
  split at h
  · simp at h
  · split at h
    · simp at h
    · split at h
      · simp at h
      · split at h
        · simp at h
        · split at h
          · simp at h
          · rename_i Fs heq
            split at h
            · refine ⟨Fs, Or.inl ?_⟩
              simp only [Except.ok.injEq] at h
              exact h.symm
            · split at h
              · refine ⟨Fs, Or.inr (Or.inl ?_)⟩
                simp only [Except.ok.injEq] at h
                exact h.symm
              · refine ⟨Fs, Or.inr (Or.inr ?_)⟩
                simp only [Except.ok.injEq] at h
                exact h.symm

/-- Claim C8 (amended): for inputs with all R elements > 0, all K elements
≥ 0 and iters ≥ 1, every element of a returned friction factor is
NONNEGATIVE — each element is a square (A/F)², and in exact real arithmetic
every value is finite.  Strict positivity fails exactly where the final
transformed variable F is 0, which does occur for valid inputs (see the
counterexample); there the float code returns inf. -/
theorem C8_amended_nonneg (Rin Kin : PyIn) (iters : ℤ) (hi : 1 ≤ iters) :
    (∀ x, (f_clamond Rin Kin iters).result = .ok (.pyfloat x) → 0 ≤ x) ∧
    (∀ x, (f_clamond Rin Kin iters).result = .ok (.nd0 x) → 0 ≤ x) ∧
    (∀ xs, (f_clamond Rin Kin iters).result = .ok (.nd1 xs) →
      ∀ x ∈ xs, 0 ≤ x) := by
  have hsq : ∀ Fs : List ℝ, ∀ y ∈ Fs.map fun F => (A / F) ^ 2, (0 : ℝ) ≤ y := by
    intro Fs y hy
    rw [List.mem_map] at hy
    obtain ⟨F, _, rfl⟩ := hy
    exact sq_nonneg _
  refine ⟨fun x hx => ?_, fun x hx => ?_, fun xs hxs => ?_⟩
  · obtain ⟨Fs, hc⟩ := f_clamond_ok_shape Rin Kin iters _ hx
    rcases hc with hc | hc | hc
    · rw [PyOut.pyfloat.injEq] at hc
      rw [hc]
      exact headI_nonneg _ (hsq Fs)
    · exact absurd hc (by simp)
    · exact absurd hc (by simp)
  · obtain ⟨Fs, hc⟩ := f_clamond_ok_shape Rin Kin iters _ hx
    rcases hc with hc | hc | hc
    · exact absurd hc (by simp)
    · rw [PyOut.nd0.injEq] at hc
      rw [hc]
      exact headI_nonneg _ (hsq Fs)
    · exact absurd hc (by simp)
  · obtain ⟨Fs, hc⟩ := f_clamond_ok_shape Rin Kin iters _ hxs
    rcases hc with hc | hc | hc
    · exact absurd hc (by simp)
    · exact absurd hc (by simp)
    · rw [PyOut.nd1.injEq] at hc
      intro x hxmem
      rw [hc] at hxmem
      exact hsq Fs x hxmem

theorem C8_amended_nonneg_witness :
    (1 : ℤ) ≤ 1 ∧
    ((∀ x, (f_clamond (.scalar 10) (.scalar 0) 1).result =
        .ok (.pyfloat x) → 0 ≤ x) ∧
      (∀ x, (f_clamond (.scalar 10) (.scalar 0) 1).result =
        .ok (.nd0 x) → 0 ≤ x) ∧
      (∀ xs, (f_clamond (.scalar 10) (.scalar 0) 1).result =
        .ok (.nd1 xs) → ∀ x ∈ xs, 0 ≤ x)) :=
  ⟨le_refl 1, C8_amended_nonneg (.scalar 10) (.scalar 0) 1 (le_refl 1)⟩

/-! ### NaN-aware model: step reductions and the loop invariant -/

lemma fdiv_some (a b : ℝ) (hb : b ≠ 0) : fdiv (some a) (some b) = some (a / b) := by
  show (if b = 0 then (none : FP) else some (a / b)) = some (a / b)
  rw [if_neg hb]

lemma flog_some (a : ℝ) (ha : 0 < a) : flog (some a) = some (Real.log a) := by
  show (if 0 < a then some (Real.log a) else (none : FP)) = some (Real.log a)
  rw [if_pos ha]

lemma fnonpos_some_false (a : ℝ) (ha : 0 < a) : fnonpos (some a) = false := by
  show (if a ≤ 0 then true else false) = false
  rw [if_neg (not_le.mpr ha)]

lemma fneg_some_false (a : ℝ) (ha : 0 ≤ a) : fneg (some a) = false := by
  show (if a < 0 then true else false) = false
  rw [if_neg (not_lt.mpr ha)]

lemma fstepF_x1_none (x2 F : FP) : fstepF none x2 F = none := by
  cases F <;> rfl

lemma fstepE_some (x1 x2 F : ℝ) (h : 0 < x1 + F) :
    fstepE (some x1) (some x2) (some F) = some (stepE x1 x2 F) := by
  unfold fstepE
  rw [show fadd (some x1) (some F) = some (x1 + F) from rfl, flog_some _ h]
  show fdiv (some (Real.log (x1 + F) + F - x2)) (some (1 + x1 + F)) = _
  rw [fdiv_some _ _ (by linarith)]
  rfl

lemma fstepF_some (x1 x2 F : ℝ) (h : 0 < x1 + F) :
    fstepF (some x1) (some x2) (some F) = some (stepF x1 x2 F) := by
  unfold fstepF
  rw [fstepE_some x1 x2 F h]
  have h3 : fdiv (some (stepE x1 x2 F)) (some 3) =
      some (stepE x1 x2 F / 3) := fdiv_some _ _ (by norm_num)
  rw [h3]
  have hD : (1 : ℝ) + x1 + F + stepE x1 x2 F * (1 + stepE x1 x2 F / 3) ≠ 0 := by
    have := D_pos_of (x1 + F) (stepE x1 x2 F) h
    intro hc
    apply absurd this
    rw [not_lt]
    nlinarith [hc]
  show fsub (some F) (fdiv
    (some ((1 + x1 + F + 0.5 * stepE x1 x2 F) * stepE x1 x2 F * (x1 + F)))
    (some (1 + x1 + F + stepE x1 x2 F * (1 + stepE x1 x2 F / 3)))) = _
  rw [fdiv_some _ _ hD]
  rfl

lemma iterFP_some (x1 x2 F : ℝ) (n : ℕ) :
    iterFP ((some x1, some x2), some F) n = some (iterN x1 x2 F n) := by
  cases n with
  | zero => rfl
  | succ n => rfl

lemma runLoopFP_ok (n : ℕ) (xs : List ((FP × FP) × FP))
    (h : ∀ p ∈ xs, p.1.1 = none ∨ ∃ x1 x2 F : ℝ,
      p = ((some x1, some x2), some F) ∧ ∀ m < n, 0 < x1 + iterN x1 x2 F m) :
    runLoopFP xs n = .ok (xs.map fun p => iterFP p n) := by
  induction n generalizing xs with
  | zero =>
    rw [runLoopFP]
    congr 1
    apply List.map_congr_left
    intro p _
    rcases p with ⟨⟨p11, p12⟩, p2⟩
    rcases p11 with _ | x1 <;> rcases p12 with _ | x2 <;>
      rcases p2 with _ | F <;> rfl
  | succ n ih =>
    rw [runLoopFP]
    have hcheck : xs.any (fun p => fnonpos (fadd p.1.1 p.2)) = false := by
      rw [List.any_eq_false]
      intro p hp
      rcases h p hp with h1 | ⟨x1, x2, F, rfl, hdom⟩
      · rcases p with ⟨⟨p11, p12⟩, p2⟩
        simp only at h1
        subst h1
        show ¬ fnonpos (fadd none p2) = true
        rw [show fnonpos (fadd none p2) = false from rfl]
        simp
      · have hpos : 0 < x1 + F := hdom 0 (Nat.succ_pos n)
        show ¬ fnonpos (fadd (some x1) (some F)) = true
        rw [show fadd (some x1) (some F) = some (x1 + F) from rfl,
          fnonpos_some_false _ hpos]
        simp
    rw [hcheck]
    simp only [Bool.false_eq_true, if_false]
    rw [ih]
    · rw [List.map_map]
      congr 1
      apply List.map_congr_left
      intro p hp
      rcases h p hp with h1 | ⟨x1, x2, F, rfl, hdom⟩
      · rcases p with ⟨⟨p11, p12⟩, p2⟩
        simp only at h1
        subst h1
        show iterFP ((none, p12), fstepF none p12 p2) n =
          iterFP ((none, p12), p2) (n + 1)
        rw [fstepF_x1_none]
        cases n <;> rcases p12 with _ | a <;> rcases p2 with _ | b <;> rfl
      · show iterFP ((some x1, some x2),
          fstepF (some x1) (some x2) (some F)) n = _
        rw [fstepF_some x1 x2 F (hdom 0 (Nat.succ_pos n)), iterFP_some,
          iterFP_some, iterN_succ_left]
    · intro p hp
      rw [List.mem_map] at hp
      obtain ⟨q, hq, rfl⟩ := hp
      rcases h q hq with h1 | ⟨x1, x2, F, rfl, hdom⟩
      · exact Or.inl (by simpa using h1)
      · refine Or.inr ⟨x1, x2, stepF x1 x2 F, ?_, ?_⟩
        · show ((some x1, some x2), fstepF (some x1) (some x2) (some F)) =
            ((some x1, some x2), some (stepF x1 x2 F))
          rw [fstepF_some x1 x2 F (hdom 0 (Nat.succ_pos n))]
        · intro m hm
          rw [iterN_succ_left]
          exact hdom (m + 1) (Nat.succ_lt_succ hm)

lemma f_clamondFP_array_result (Rs : List FP) (K : ℝ) (n : ℕ)
    (hR : ∀ x : ℝ, some x ∈ Rs → 0 < x) (hK : 0 ≤ K)
    (hdom : ∀ x : ℝ, some x ∈ Rs → domainOK x K n)
    (hF : ∀ x : ℝ, some x ∈ Rs → Fiter x K n ≠ 0) :
    (f_clamondFP (.array Rs) (.scalar (some K)) (n : ℤ)).result =
      .ok (.nd1 (Rs.map fun r => Option.map (fun x => runElem x K n) r)) := by
  have h4 : ((n : ℤ)).toNat = n := Int.toNat_natCast n
  have hRany : Rs.any fnonpos = false := by
    rw [List.any_eq_false]
    intro r hr
    cases r with
    | none => simp [show fnonpos none = false from rfl]
    | some x =>
      rw [fnonpos_some_false x (hR x hr)]
      simp
  have hKany : List.any [(some K : FP)] fneg = false := by
    rw [List.any_eq_false]
    intro k hk
    rw [List.mem_singleton] at hk
    subst hk
    rw [fneg_some_false K hK]
    simp
  have hrl : runLoopFP ((Rs.map fun r => (r, (some K : FP))).map fun p =>
      ((fmul (fmul p.2 p.1) (some C1), fadd (flog p.1) (some C2)),
        fsub (fadd (flog p.1) (some C2)) (some 0.2))) n =
      .ok (Rs.map fun r => Option.map (fun x => Fiter x K n) r) := by
    rw [runLoopFP_ok]
    · rw [List.map_map, List.map_map]
      congr 1
      apply List.map_congr_left
      intro r hr
      cases r with
      | none =>
        show iterFP ((fmul (fmul (some K) none) (some C1),
          fadd (flog none) (some C2)),
          fsub (fadd (flog none) (some C2)) (some 0.2)) n = none
        cases n <;> rfl
      | some x =>
        show iterFP ((fmul (fmul (some K) (some x)) (some C1),
          fadd (flog (some x)) (some C2)),
          fsub (fadd (flog (some x)) (some C2)) (some 0.2)) n
          = some (Fiter x K n)
        rw [flog_some x (hR x hr)]
        exact iterFP_some (X1 x K) (X2 x) (X2 x - 0.2) n
    · intro p hp
      rw [List.map_map, List.mem_map] at hp
      obtain ⟨r, hr, rfl⟩ := hp
      cases r with
      | none => exact Or.inl rfl
      | some x =>
        refine Or.inr ⟨X1 x K, X2 x, X2 x - 0.2, ?_, fun m hm => hdom x hr m hm⟩
        show ((fmul (fmul (some K) (some x)) (some C1),
          fadd (flog (some x)) (some C2)),
          fsub (fadd (flog (some x)) (some C2)) (some 0.2)) = _
        rw [flog_some x (hR x hr)]
        rfl
  simp only [f_clamondFP, np_asarrayFP, NDArrayFP.elems, broadcastFP, h4]
  rw [hRany, hKany, if_neg (not_lt.mpr (Int.natCast_nonneg n))]
  simp only [Bool.false_eq_true, if_false]
  rw [hrl]
  simp only [np_isscalarFP, Bool.and_false, Bool.false_eq_true, if_false,
    List.map_map]
  apply congrArg (fun l => Except.ok (PyOutFP.nd1 l))
  apply List.map_congr_left
  intro r hr
  cases r with
  | none => rfl
  | some x =>
    show fsq (fdiv (some A) (some (Fiter x K n))) = some (runElem x K n)
    rw [fdiv_some A _ (hF x hr)]
    rfl

lemma f_clamondFP_array_nanK (Rs : List FP) (n : ℕ) (hn : 1 ≤ n)
    (hR : ∀ x : ℝ, some x ∈ Rs → 0 < x) :
    (f_clamondFP (.array Rs) (.scalar none) (n : ℤ)).result =
      .ok (.nd1 (Rs.map fun _ => (none : FP))) := by
  have h4 : ((n : ℤ)).toNat = n := Int.toNat_natCast n
  have hRany : Rs.any fnonpos = false := by
    rw [List.any_eq_false]
    intro r hr
    cases r with
    | none => simp [show fnonpos none = false from rfl]
    | some x =>
      rw [fnonpos_some_false x (hR x hr)]
      simp
  have hKany : List.any [(none : FP)] fneg = false := by
    rw [List.any_eq_false]
    intro k hk
    rw [List.mem_singleton] at hk
    subst hk
    simp [show fneg none = false from rfl]
  obtain ⟨m, rfl⟩ : ∃ m, n = m + 1 := ⟨n - 1, by omega⟩
  have hrl : runLoopFP ((Rs.map fun r => (r, (none : FP))).map fun p =>
      ((fmul (fmul p.2 p.1) (some C1), fadd (flog p.1) (some C2)),
        fsub (fadd (flog p.1) (some C2)) (some 0.2))) (m + 1) =
      .ok (Rs.map fun _ => (none : FP)) := by
    rw [runLoopFP_ok]
    · rw [List.map_map, List.map_map]
      congr 1
    · intro p hp
      rw [List.map_map, List.mem_map] at hp
      obtain ⟨r, hr, rfl⟩ := hp
      exact Or.inl rfl
  simp only [f_clamondFP, np_asarrayFP, NDArrayFP.elems, broadcastFP, h4]
  rw [hRany, hKany, if_neg (not_lt.mpr (Int.natCast_nonneg (m + 1)))]
  simp only [Bool.false_eq_true, if_false]
  rw [hrl]
  simp only [np_isscalarFP, Bool.and_false, Bool.false_eq_true, if_false,
    List.map_map]
  apply congrArg (fun l => Except.ok (PyOutFP.nd1 l))
  apply List.map_congr_left
  intro r _
  rfl

/-- Claim C10 (counterexample): at R = 10.0, K = NaN, iters = 0 the call
raises no error (NaN passes the K < 0 check) and returns normally, but the
output is the REAL initial-guess value, not NaN: with iters = 0, K (and so
its NaN) is never used.  This refutes 'NaN in the corresponding output
elements' as universally stated for iters ≥ 0. -/
theorem C10_nan_counterexample :
    (f_clamondFP (.scalar (some 10)) (.scalar none) 0).result =
      .ok (.nd0 (some ((A / (Real.log 10 + C2 - 0.2)) ^ 2))) := by
  have hden : Real.log 10 + C2 - 0.2 ≠ 0 := by
    obtain ⟨h1, _⟩ := log10_bounds
    obtain ⟨h3, _⟩ := C2_bounds
    intro hc
    linarith [hc]
  have hRany : List.any [(some (10 : ℝ) : FP)] fnonpos = false := by
    rw [List.any_eq_false]
    intro r hr
    rw [List.mem_singleton] at hr
    subst hr
    rw [fnonpos_some_false 10 (by norm_num)]
    simp
  have hKany : List.any [(none : FP)] fneg = false := by
    rw [List.any_eq_false]
    intro k hk
    rw [List.mem_singleton] at hk
    subst hk
    simp [show fneg none = false from rfl]
  simp only [f_clamondFP, np_asarrayFP, NDArrayFP.elems, broadcastFP]
  rw [hRany, hKany, if_neg (by norm_num : ¬ (0 : ℤ) < 0)]
  simp only [Bool.false_eq_true, if_false]
  rw [show ((0 : ℤ)).toNat = 0 from rfl, runLoopFP]
  simp only [List.map]
  rw [flog_some 10 (by norm_num)]
  show Except.ok (PyOutFP.nd0 (fsq (fdiv (some A)
    (some (Real.log 10 + C2 - 0.2))))) = _
  rw [fdiv_some A _ hden]
  rfl

/-- Claim C10 (amended): NaN handling of the solver.  (a) With a real
scalar K ≥ 0 and any mix of NaN and valid elements in R (valid: positive,
per-step domain checks hold, final F nonzero), no InvalidArgument is raised
— NaN elements pass the R ≤ 0 check, the K < 0 check and every per-step
X1 + F ≤ 0 check, since comparisons with NaN are false — the call returns
normally, and exactly the NaN elements of R produce NaN output elements.
(b) A NaN K propagates to every output element whenever iters ≥ 1; for
iters = 0, K is unused and the outputs are real (see the counterexample). -/
theorem C10_nan_propagation :
    (∀ (Rs : List FP) (K : ℝ) (n : ℕ), (∀ x : ℝ, some x ∈ Rs → 0 < x) →
      0 ≤ K → (∀ x : ℝ, some x ∈ Rs → domainOK x K n) →
      (∀ x : ℝ, some x ∈ Rs → Fiter x K n ≠ 0) →
      (f_clamondFP (.array Rs) (.scalar (some K)) (n : ℤ)).result =
        .ok (.nd1 (Rs.map fun r => Option.map (fun x => runElem x K n) r))) ∧
    (∀ (Rs : List FP) (n : ℕ), 1 ≤ n → (∀ x : ℝ, some x ∈ Rs → 0 < x) →
      (f_clamondFP (.array Rs) (.scalar none) (n : ℤ)).result =
        .ok (.nd1 (Rs.map fun _ => (none : FP)))) :=
  ⟨fun Rs K n hR hK hdom hF => f_clamondFP_array_result Rs K n hR hK hdom hF,
   fun Rs n hn hR => f_clamondFP_array_nanK Rs n hn hR⟩

theorem C10_nan_propagation_witness :
    ((∀ x : ℝ, some x ∈ [(none : FP), some 10] → 0 < x) ∧ (0 : ℝ) ≤ 0 ∧
      (∀ x : ℝ, some x ∈ [(none : FP), some 10] → domainOK x 0 1) ∧
      (∀ x : ℝ, some x ∈ [(none : FP), some 10] → Fiter x 0 1 ≠ 0)) ∧
    (f_clamondFP (.array [none, some 10]) (.scalar (some 0))
        ((1 : ℕ) : ℤ)).result =
      .ok (.nd1 ([(none : FP), some 10].map fun r =>
        Option.map (fun x => runElem x 0 1) r)) := by
  have hmem : ∀ x : ℝ, some x ∈ [(none : FP), some 10] → x = 10 := by
    intro x hx
    rcases List.mem_cons.mp hx with hx | hx
    · exact absurd hx (by simp)
    · rw [List.mem_singleton] at hx
      exact Option.some.inj hx
  have h1 : ∀ x : ℝ, some x ∈ [(none : FP), some 10] → 0 < x := by
    intro x hx
    rw [hmem x hx]
    norm_num
  have h2 : ∀ x : ℝ, some x ∈ [(none : FP), some 10] → domainOK x 0 1 := by
    intro x hx
    rw [hmem x hx]
    apply domainOK_one_of_s_pos
    obtain ⟨ha, _⟩ := log10_bounds
    obtain ⟨hb, _⟩ := C2_bounds
    linarith
  have h3 : ∀ x : ℝ, some x ∈ [(none : FP), some 10] → Fiter x 0 1 ≠ 0 := by
    intro x hx
    rw [hmem x hx, Fiter_one_K0]
    exact ne_of_gt gOf_10_pos
  exact ⟨⟨h1, le_refl 0, h2, h3⟩,
    C10_nan_propagation.1 [none, some 10] 0 1 h1 (le_refl 0) h2 h3⟩

end Colebrook
